import Mathlib

/-!
Verification of the erato archive service against its specification.

The development shallowly embeds the Go sources:
- internal/slugconv/slugconv.go   (slug/path conversion, resource-id grammar)
- the archive Scraper (row-timestamp year inference, ListEntries pagination)
- internal/archive/paginator.go   (token application, filtering, page sizing)
- internal/pagination (FromToken) and internal/archive/validator.go
- internal/archive/interactivity.go (updateResource)

Machine strings are modeled as Lean String or List Char; timestamps as Int
(an instant on a single linear scale, which is what both proto.Equal on
normalized timestamps and time.Time comparison observe).
-/

namespace Erato

/-! ## slugconv: character classes of the resource-id regex

The source constant is
  resourceIDPattern = [a-zA-Z0-9]([a-z0-9-.]{0,61}[a-z0-9])?
compiled anchored (patternMustCompile prepends ^ and appends $).
-/

/-- The class [a-zA-Z0-9]: first character of a resource id. -/
def isIDHead (c : Char) : Bool :=
  ('a' ≤ c && c ≤ 'z') || ('A' ≤ c && c ≤ 'Z') || ('0' ≤ c && c ≤ '9')

/-- The class [a-z0-9]: last character of a non-singleton resource id. -/
def isIDEnd (c : Char) : Bool :=
  ('a' ≤ c && c ≤ 'z') || ('0' ≤ c && c ≤ '9')

/-- The class [a-z0-9-.]: interior characters of a resource id. -/
def isIDTail (c : Char) : Bool :=
  isIDEnd c || c == '-' || c == '.'

/-- Acceptance of the CODE pattern `[a-zA-Z0-9]([a-z0-9-.]{0,61}[a-z0-9])?`:
one head character, then optionally a run of at most 61 interior characters
followed by one mandatory [a-z0-9] character (the parenthesized tail is
optional as a whole, but when present it must end in [a-z0-9]). -/
def isResourceID (s : List Char) : Bool :=
  match s with
  | [] => false
  | c :: tail =>
    isIDHead c &&
      (tail.isEmpty ||
        (tail.dropLast.all isIDTail && decide (tail.dropLast.length ≤ 61) &&
          isIDEnd (tail.getLastD 'A')))

/-- Acceptance of the SPEC grammar, from the spec's words:
`[A-Za-z0-9][a-z0-9-.]{0,61}[a-z0-9]?` — one head character, a run of at
most 61 interior characters, then an OPTIONAL final [a-z0-9] character.
Unlike the code pattern, the trailing [a-z0-9] may be absent even when the
interior run is non-empty, so e.g. "a-" is in this grammar. -/
def specGrammarResourceID (s : List Char) : Bool :=
  match s with
  | [] => false
  | c :: tail =>
    isIDHead c &&
      ((tail.all isIDTail && decide (tail.length ≤ 61)) ||
        (!tail.isEmpty && tail.dropLast.all isIDTail &&
          decide (tail.dropLast.length ≤ 61) && isIDEnd (tail.getLastD 'A')))

/-! ## slugconv: segment splitting

The six anchored patterns are alternations of resource ids separated by
literal `/` characters (with an optional trailing `/` for the category and
entry slug patterns).  Because no character of a resource id can be `/`,
an anchored match of such a pattern is exactly a decomposition of the
input at its `/` characters; `splitSegs` computes that decomposition and
`joinSegs` is its inverse. -/

/-- Split a character list at every '/' (the separator of the patterns). -/
def splitSegs : List Char → List (List Char)
  | [] => [[]]
  | c :: rest =>
    if c = '/' then [] :: splitSegs rest
    else (splitSegs rest).modifyHead (c :: ·)

/-- Join segments with '/' separators (inverse of splitSegs). -/
def joinSegs : List (List Char) → List Char
  | [] => []
  | [s] => s
  | s :: rest => s ++ '/' :: joinSegs rest

theorem splitSegs_ne_nil (s : List Char) : splitSegs s ≠ [] := by
  induction s with
  | nil => simp [splitSegs]
  | cons c rest ih =>
    simp only [splitSegs]
    split
    · simp
    · cases h : splitSegs rest with
      | nil => exact absurd h ih
      | cons a l => simp [List.modifyHead]

theorem joinSegs_splitSegs (s : List Char) : joinSegs (splitSegs s) = s := by
  induction s with
  | nil => simp [splitSegs, joinSegs]
  | cons c rest ih =>
    simp only [splitSegs]
    split
    · rename_i hc
      subst hc
      cases h : splitSegs rest with
      | nil => exact absurd h (splitSegs_ne_nil rest)
      | cons a l =>
        rw [h] at ih
        simp [joinSegs, ih]
    · cases h : splitSegs rest with
      | nil => exact absurd h (splitSegs_ne_nil rest)
      | cons a l =>
        rw [h] at ih
        cases l with
        | nil => simp [joinSegs, List.modifyHead] at ih ⊢; simp [ih]
        | cons b l' =>
          simp [joinSegs, List.modifyHead] at ih ⊢
          simp [ih]

theorem splitSegs_of_noSlash {s : List Char} (h : '/' ∉ s) : splitSegs s = [s] := by
  induction s with
  | nil => simp [splitSegs]
  | cons c rest ih =>
    simp only [splitSegs]
    have hc : c ≠ '/' := by
      intro hc; exact h (hc ▸ List.mem_cons_self c rest)
    rw [if_neg hc, ih (fun hm => h (List.mem_cons_of_mem c hm))]
    simp [List.modifyHead]

theorem splitSegs_append {a rest : List Char} (h : '/' ∉ a) :
    splitSegs (a ++ '/' :: rest) = a :: splitSegs rest := by
  induction a with
  | nil => simp [splitSegs]
  | cons c a' ih =>
    have hc : c ≠ '/' := by
      intro hc; exact h (hc ▸ List.mem_cons_self c a')
    simp only [List.cons_append, splitSegs, if_neg hc, List.append_eq]
    rw [ih (fun hm => h (List.mem_cons_of_mem c hm))]
    simp [List.modifyHead]

/-- A resource id never contains '/': every character class of the pattern
excludes it. -/
theorem noSlash_of_isResourceID {s : List Char} (h : isResourceID s = true) : '/' ∉ s := by
  match s with
  | [] => simp [isResourceID] at h
  | c :: tail =>
    simp only [isResourceID, Bool.and_eq_true, Bool.or_eq_true] at h
    obtain ⟨hc, htail⟩ := h
    intro hm
    rcases List.mem_cons.mp hm with hm | hm
    · rw [← hm] at hc; simp [isIDHead] at hc
    · rcases htail with he | htail
      · have he' : tail = [] := by cases tail <;> simp_all [List.isEmpty]
        subst he'
        simp at hm
      · obtain ⟨⟨hall, _⟩, hlast⟩ := htail
        have hne : tail ≠ [] := by
          intro hnil; subst hnil; simp at hm
        obtain ⟨mid, last, hconc⟩ := (List.eq_nil_or_concat tail).resolve_left hne
        rw [List.concat_eq_append] at hconc
        subst hconc
        rw [List.dropLast_concat] at hall
        rcases List.mem_append.mp hm with hmid | hl
        · have := List.all_eq_true.mp hall _ hmid
          simp [isIDTail, isIDEnd] at this
        · simp at hl
          rw [List.getLastD_concat] at hlast
          rw [← hl] at hlast
          simp [isIDEnd] at hlast

/-! ## slugconv: the six conversion functions

`convert` matches the input against the anchored pattern, extracts the
resource ids from the capture groups recorded in the match-index lists
({1}, {1,3}, {1,3,5}), and rebuilds the output with Sprintf on the format
string.  `patternMustCompile(_, true)` appends an optional trailing slash
to the slug patterns of categories and entries (not chapters, not paths).
The errors are ErrInvalidSlug for to-path and ErrInvalidPath for to-slug
conversions. -/

/-- The slugconv error values: ErrInvalidSlug and ErrInvalidPath. -/
inductive SlugError where
  | invalidSlug : SlugError
  | invalidPath : SlugError
deriving DecidableEq, Repr

/-- The literal segment "categories". -/
def categoriesSeg : List Char := "categories".toList

/-- The literal segment "entries". -/
def entriesSeg : List Char := "entries".toList

/-- The literal segment "chapters". -/
def chaptersSeg : List Char := "chapters".toList

/-- ToCategoryPath: match `^(id)/?$`, emit `categories/%s`. -/
def ToCategoryPath (slug : List Char) : Except SlugError (List Char) :=
  match splitSegs slug with
  | [a] =>
    if isResourceID a then .ok (categoriesSeg ++ '/' :: a) else .error .invalidSlug
  | [a, t] =>
    if t.isEmpty && isResourceID a then .ok (categoriesSeg ++ '/' :: a)
    else .error .invalidSlug
  | _ => .error .invalidSlug

/-- ToEntryPath: match `^(id)/(id)/?$`, emit `categories/%s/entries/%s`. -/
def ToEntryPath (slug : List Char) : Except SlugError (List Char) :=
  match splitSegs slug with
  | [a, b] =>
    if isResourceID a && isResourceID b then
      .ok (categoriesSeg ++ '/' :: (a ++ '/' :: (entriesSeg ++ '/' :: b)))
    else .error .invalidSlug
  | [a, b, t] =>
    if t.isEmpty && isResourceID a && isResourceID b then
      .ok (categoriesSeg ++ '/' :: (a ++ '/' :: (entriesSeg ++ '/' :: b)))
    else .error .invalidSlug
  | _ => .error .invalidSlug

/-- ToChapterPath: match `^(id)/(id)/(id)$` (NO optional trailing slash),
emit `categories/%s/entries/%s/chapters/%s`. -/
def ToChapterPath (slug : List Char) : Except SlugError (List Char) :=
  match splitSegs slug with
  | [a, b, c] =>
    if isResourceID a && isResourceID b && isResourceID c then
      .ok (categoriesSeg ++ '/' :: (a ++ '/' :: (entriesSeg ++ '/' :: (b ++ '/' :: (chaptersSeg ++ '/' :: c)))))
    else .error .invalidSlug
  | _ => .error .invalidSlug

/-- FromCategoryPath: match `^categories/(id)$`, emit `%s`. -/
def FromCategoryPath (path : List Char) : Except SlugError (List Char) :=
  match splitSegs path with
  | [cs, a] =>
    if cs = categoriesSeg && isResourceID a then .ok a else .error .invalidPath
  | _ => .error .invalidPath

/-- FromEntryPath: match `^categories/(id)/entries/(id)$`, emit `%s/%s`. -/
def FromEntryPath (path : List Char) : Except SlugError (List Char) :=
  match splitSegs path with
  | [cs, a, es, b] =>
    if cs = categoriesSeg && es = entriesSeg && isResourceID a && isResourceID b then
      .ok (a ++ '/' :: b)
    else .error .invalidPath
  | _ => .error .invalidPath

/-- FromChapterPath: match `^categories/(id)/entries/(id)/chapters/(id)$`,
emit `%s/%s/%s`. -/
def FromChapterPath (path : List Char) : Except SlugError (List Char) :=
  match splitSegs path with
  | [cs, a, es, b, hs, c] =>
    if cs = categoriesSeg && es = entriesSeg && hs = chaptersSeg &&
        isResourceID a && isResourceID b && isResourceID c then
      .ok (a ++ '/' :: (b ++ '/' :: c))
    else .error .invalidPath
  | _ => .error .invalidPath

/-- Whether an Except carries a value. -/
def isOkB {ε α : Type} : Except ε α → Bool
  | .ok _ => true
  | .error _ => false

/-- Strip at most one trailing '/' (the optional suffix of the slug
patterns); used to phrase segment counts uniformly. -/
def dropTrailingSlash (s : List Char) : List Char :=
  if s.getLastD 'A' == '/' then s.dropLast else s

theorem isIDTail_of_isIDEnd {c : Char} (h : isIDEnd c = true) : isIDTail c = true := by
  simp [isIDTail, h]

/-- The code pattern agrees with the spec grammar exactly on the strings
whose tail is empty or ends in [a-z0-9]. -/
theorem isResourceID_eq_specGrammar (s : List Char) :
    isResourceID s =
      (specGrammarResourceID s && (decide (s.length ≤ 1) || isIDEnd (s.getLastD 'A'))) := by
  cases s with
  | nil => rfl
  | cons c tail =>
    rcases List.eq_nil_or_concat tail with rfl | ⟨mid, last, hconc⟩
    · simp [isResourceID, specGrammarResourceID]
    · rw [List.concat_eq_append] at hconc
      subst hconc
      have h1 : (c :: (mid ++ [last])).getLastD 'A' = last := by
        rw [show c :: (mid ++ [last]) = (c :: mid) ++ [last] by simp]
        exact List.getLastD_concat _ _ _
      have h2 : decide ((c :: (mid ++ [last])).length ≤ 1) = false := by
        simp [decide_eq_false_iff_not]
      have hEmpty : (mid ++ [last] : List Char).isEmpty = false := by cases mid <;> rfl
      simp only [isResourceID, specGrammarResourceID, List.dropLast_concat,
        List.getLastD_concat, h1, h2, hEmpty, Bool.false_or, Bool.not_false,
        Bool.true_and]
      cases hEnd : isIDEnd last with
      | false => simp [List.all_append, hEnd]
      | true =>
        have hTail := isIDTail_of_isIDEnd hEnd
        simp only [List.all_append, List.all_cons, List.all_nil, hTail,
          Bool.and_true, Bool.or_true, Bool.and_true, List.length_append,
          List.length_singleton]
        cases hall : mid.all isIDTail with
        | false => simp
        | true =>
          simp only [Bool.true_and]
          by_cases hlen : mid.length ≤ 61
          · have ht : decide (mid.length ≤ 61) = true := by simp [hlen]
            by_cases hlen1 : mid.length + 1 ≤ 61
            · have ht1 : decide (mid.length + 1 ≤ 61) = true := by simp [hlen1]
              simp [ht, ht1]
            · have ht1 : decide (mid.length + 1 ≤ 61) = false := by simp [hlen1]
              simp [ht, ht1]
          · have ht : decide (mid.length ≤ 61) = false := by simp [hlen]
            have ht1 : decide (mid.length + 1 ≤ 61) = false := by
              simp only [decide_eq_false_iff_not]
              omega
            simp [ht, ht1]
            intro _
            omega

theorem splitSegs_append_slash (s : List Char) :
    splitSegs (s ++ ['/']) = splitSegs s ++ [[]] := by
  induction s with
  | nil => rfl
  | cons c rest ih =>
    simp only [List.cons_append, splitSegs, List.append_eq]
    split
    · rw [ih]
      rfl
    · rw [ih]
      cases h : splitSegs rest with
      | nil => exact absurd h (splitSegs_ne_nil rest)
      | cons a l => simp [List.modifyHead]

theorem resourceID_getLastD_ne_slash {a : List Char} (ha : isResourceID a = true) :
    a.getLastD 'A' ≠ '/' := by
  have hne : a ≠ [] := by
    intro h; subst h; simp [isResourceID] at ha
  rw [List.getLastD_eq_getLast?, List.getLast?_eq_getLast a hne, Option.getD_some]
  intro h
  exact noSlash_of_isResourceID ha (h ▸ List.getLast_mem hne)

/-- Inversion for ToCategoryPath: an accepted slug is a resource id with at
most one trailing slash, and the output is categories/id. -/
theorem ToCategoryPath_ok {s p : List Char} (h : ToCategoryPath s = .ok p) :
    ∃ a, isResourceID a = true ∧ p = categoriesSeg ++ '/' :: a ∧
      (s = a ∨ s = a ++ ['/']) := by
  have hjoin := joinSegs_splitSegs s
  unfold ToCategoryPath at h
  split at h
  · rename_i a heq
    rw [heq] at hjoin
    split at h
    · rename_i ha
      injection h with h
      exact ⟨a, ha, h.symm, .inl (by simpa [joinSegs] using hjoin.symm)⟩
    · cases h
  · rename_i a t heq
    rw [heq] at hjoin
    split at h
    · rename_i hc
      simp only [Bool.and_eq_true, List.isEmpty_eq_true] at hc
      obtain ⟨rfl, ha⟩ := hc
      injection h with h
      exact ⟨a, ha, h.symm, .inr (by simpa [joinSegs] using hjoin.symm)⟩
    · cases h
  · cases h

/-- Inversion for ToEntryPath. -/
theorem ToEntryPath_ok {s p : List Char} (h : ToEntryPath s = .ok p) :
    ∃ a b, isResourceID a = true ∧ isResourceID b = true ∧
      p = categoriesSeg ++ '/' :: (a ++ '/' :: (entriesSeg ++ '/' :: b)) ∧
      (s = a ++ '/' :: b ∨ s = a ++ '/' :: (b ++ ['/'])) := by
  have hjoin := joinSegs_splitSegs s
  unfold ToEntryPath at h
  split at h
  · rename_i a b heq
    rw [heq] at hjoin
    split at h
    · rename_i hc
      simp only [Bool.and_eq_true] at hc
      injection h with h
      exact ⟨a, b, hc.1, hc.2, h.symm, .inl (by simpa [joinSegs] using hjoin.symm)⟩
    · cases h
  · rename_i a b t heq
    rw [heq] at hjoin
    split at h
    · rename_i hc
      simp only [Bool.and_eq_true, List.isEmpty_eq_true] at hc
      obtain ⟨⟨rfl, ha⟩, hb⟩ := hc
      injection h with h
      exact ⟨a, b, ha, hb, h.symm, .inr (by simpa [joinSegs] using hjoin.symm)⟩
    · cases h
  · cases h

/-- Inversion for ToChapterPath (no trailing slash allowed). -/
theorem ToChapterPath_ok {s p : List Char} (h : ToChapterPath s = .ok p) :
    ∃ a b c, isResourceID a = true ∧ isResourceID b = true ∧ isResourceID c = true ∧
      p = categoriesSeg ++ '/' :: (a ++ '/' :: (entriesSeg ++ '/' :: (b ++ '/' :: (chaptersSeg ++ '/' :: c)))) ∧
      s = a ++ '/' :: (b ++ '/' :: c) := by
  have hjoin := joinSegs_splitSegs s
  unfold ToChapterPath at h
  split at h
  · rename_i a b c heq
    rw [heq] at hjoin
    split at h
    · rename_i hc
      simp only [Bool.and_eq_true] at hc
      injection h with h
      exact ⟨a, b, c, hc.1.1, hc.1.2, hc.2, h.symm, by simpa [joinSegs] using hjoin.symm⟩
    · cases h
  · cases h

/-- Inversion for FromCategoryPath. -/
theorem FromCategoryPath_ok {p s : List Char} (h : FromCategoryPath p = .ok s) :
    isResourceID s = true ∧ p = categoriesSeg ++ '/' :: s := by
  have hjoin := joinSegs_splitSegs p
  unfold FromCategoryPath at h
  split at h
  · rename_i cs a heq
    rw [heq] at hjoin
    split at h
    · rename_i hc
      simp only [Bool.and_eq_true, decide_eq_true_eq] at hc
      obtain ⟨rfl, ha⟩ := hc
      injection h with h
      subst h
      exact ⟨ha, by simpa [joinSegs] using hjoin.symm⟩
    · cases h
  · cases h

/-- Inversion for FromEntryPath. -/
theorem FromEntryPath_ok {p s : List Char} (h : FromEntryPath p = .ok s) :
    ∃ a b, isResourceID a = true ∧ isResourceID b = true ∧ s = a ++ '/' :: b ∧
      p = categoriesSeg ++ '/' :: (a ++ '/' :: (entriesSeg ++ '/' :: b)) := by
  have hjoin := joinSegs_splitSegs p
  unfold FromEntryPath at h
  split at h
  · rename_i cs a es b heq
    rw [heq] at hjoin
    split at h
    · rename_i hc
      simp only [Bool.and_eq_true, decide_eq_true_eq] at hc
      obtain ⟨⟨⟨rfl, rfl⟩, ha⟩, hb⟩ := hc
      injection h with h
      exact ⟨a, b, ha, hb, h.symm, by simpa [joinSegs] using hjoin.symm⟩
    · cases h
  · cases h

/-- Inversion for FromChapterPath. -/
theorem FromChapterPath_ok {p s : List Char} (h : FromChapterPath p = .ok s) :
    ∃ a b c, isResourceID a = true ∧ isResourceID b = true ∧ isResourceID c = true ∧
      s = a ++ '/' :: (b ++ '/' :: c) ∧
      p = categoriesSeg ++ '/' :: (a ++ '/' :: (entriesSeg ++ '/' :: (b ++ '/' :: (chaptersSeg ++ '/' :: c)))) := by
  have hjoin := joinSegs_splitSegs p
  unfold FromChapterPath at h
  split at h
  · rename_i cs a es b hs2 c heq
    rw [heq] at hjoin
    split at h
    · rename_i hc
      simp only [Bool.and_eq_true, decide_eq_true_eq] at hc
      obtain ⟨⟨⟨⟨⟨rfl, rfl⟩, rfl⟩, ha⟩, hb⟩, hcid⟩ := hc
      injection h with h
      exact ⟨a, b, c, ha, hb, hcid, h.symm, by simpa [joinSegs] using hjoin.symm⟩
    · cases h
  · cases h

/-- C1 (counterexample): the claim asserts that acceptance by the slug/path
conversion functions agrees with the spec grammar
[A-Za-z0-9][a-z0-9-.]{0,61}[a-z0-9]? on strings such as "a-".  It does not:
"a-" is in the spec grammar, yet the code pattern
[a-zA-Z0-9]([a-z0-9-.]{0,61}[a-z0-9])? requires a non-empty id tail to end
in [a-z0-9], so ToCategoryPath rejects the slug "a-" and FromCategoryPath
rejects the path "categories/a-". -/
theorem C1_counterexample :
    specGrammarResourceID "a-".toList = true ∧
    ToCategoryPath "a-".toList = .error .invalidSlug ∧
    FromCategoryPath "categories/a-".toList = .error .invalidPath :=
  ⟨by decide, by rfl, by rfl⟩

/-- C1 (amended): a '/'-free string is accepted as a resource id by the
conversion functions exactly when it matches the CODE pattern
[a-zA-Z0-9]([a-z0-9-.]{0,61}[a-z0-9])?, which agrees with the spec grammar
[A-Za-z0-9][a-z0-9-.]{0,61}[a-z0-9]? precisely on strings that are a single
character or end in [a-z0-9]; strings with a non-empty tail ending in '-'
or '.' (such as "a-") are in the spec grammar but rejected by the code. -/
theorem C1_amended (s : List Char) (h : '/' ∉ s) :
    isOkB (ToCategoryPath s) = isResourceID s ∧
    isResourceID s =
      (specGrammarResourceID s && (decide (s.length ≤ 1) || isIDEnd (s.getLastD 'A'))) := by
  constructor
  · unfold ToCategoryPath
    rw [splitSegs_of_noSlash h]
    cases hr : isResourceID s <;> simp [isOkB, hr]
  · exact isResourceID_eq_specGrammar s

/-- Witness for C1_amended at the concrete slug "story-1". -/
theorem C1_amended_witness :
    isOkB (ToCategoryPath "story-1".toList) = isResourceID "story-1".toList ∧
    isResourceID "story-1".toList =
      (specGrammarResourceID "story-1".toList &&
        (decide ("story-1".toList.length ≤ 1) || isIDEnd ("story-1".toList.getLastD 'A'))) :=
  C1_amended "story-1".toList (by decide)

theorem ToCategoryPath_build {a : List Char} (ha : isResourceID a = true) :
    ToCategoryPath a = .ok (categoriesSeg ++ '/' :: a) := by
  unfold ToCategoryPath
  rw [splitSegs_of_noSlash (noSlash_of_isResourceID ha)]
  simp [ha]

theorem ToEntryPath_build {a b : List Char}
    (ha : isResourceID a = true) (hb : isResourceID b = true) :
    ToEntryPath (a ++ '/' :: b) =
      .ok (categoriesSeg ++ '/' :: (a ++ '/' :: (entriesSeg ++ '/' :: b))) := by
  unfold ToEntryPath
  rw [splitSegs_append (noSlash_of_isResourceID ha),
    splitSegs_of_noSlash (noSlash_of_isResourceID hb)]
  simp [ha, hb]

theorem ToChapterPath_build {a b c : List Char}
    (ha : isResourceID a = true) (hb : isResourceID b = true)
    (hc : isResourceID c = true) :
    ToChapterPath (a ++ '/' :: (b ++ '/' :: c)) =
      .ok (categoriesSeg ++ '/' :: (a ++ '/' :: (entriesSeg ++ '/' :: (b ++ '/' :: (chaptersSeg ++ '/' :: c))))) := by
  unfold ToChapterPath
  rw [splitSegs_append (noSlash_of_isResourceID ha),
    splitSegs_append (noSlash_of_isResourceID hb),
    splitSegs_of_noSlash (noSlash_of_isResourceID hc)]
  simp [ha, hb, hc]

theorem FromCategoryPath_build {a : List Char} (ha : isResourceID a = true) :
    FromCategoryPath (categoriesSeg ++ '/' :: a) = .ok a := by
  unfold FromCategoryPath
  rw [splitSegs_append (by decide), splitSegs_of_noSlash (noSlash_of_isResourceID ha)]
  simp [ha]

theorem FromEntryPath_build {a b : List Char}
    (ha : isResourceID a = true) (hb : isResourceID b = true) :
    FromEntryPath (categoriesSeg ++ '/' :: (a ++ '/' :: (entriesSeg ++ '/' :: b))) =
      .ok (a ++ '/' :: b) := by
  unfold FromEntryPath
  rw [splitSegs_append (by decide), splitSegs_append (noSlash_of_isResourceID ha),
    splitSegs_append (by decide), splitSegs_of_noSlash (noSlash_of_isResourceID hb)]
  simp [ha, hb]

theorem FromChapterPath_build {a b c : List Char}
    (ha : isResourceID a = true) (hb : isResourceID b = true)
    (hc : isResourceID c = true) :
    FromChapterPath (categoriesSeg ++ '/' :: (a ++ '/' :: (entriesSeg ++ '/' :: (b ++ '/' :: (chaptersSeg ++ '/' :: c))))) = .ok (a ++ '/' :: (b ++ '/' :: c)) := by
  unfold FromChapterPath
  rw [splitSegs_append (by decide), splitSegs_append (noSlash_of_isResourceID ha),
    splitSegs_append (by decide), splitSegs_append (noSlash_of_isResourceID hb),
    splitSegs_append (by decide), splitSegs_of_noSlash (noSlash_of_isResourceID hc)]
  simp [ha, hb, hc]

theorem getLastD_append_resourceID {x b : List Char} (hb : isResourceID b = true) :
    (x ++ b).getLastD 'A' = b.getLastD 'A' := by
  have hne : b ≠ [] := by
    intro h; subst h; simp [isResourceID] at hb
  obtain ⟨mid, last, hconc⟩ := (List.eq_nil_or_concat b).resolve_left hne
  rw [List.concat_eq_append] at hconc
  subst hconc
  rw [show x ++ (mid ++ [last]) = (x ++ mid) ++ [last] by simp,
    List.getLastD_concat, List.getLastD_concat]

theorem dropTrailingSlash_eq_self {s : List Char} (h : s.getLastD 'A' ≠ '/') :
    dropTrailingSlash s = s := by
  unfold dropTrailingSlash
  rw [if_neg (by simpa using h)]

theorem dropTrailingSlash_concat (s : List Char) :
    dropTrailingSlash (s ++ ['/']) = s := by
  unfold dropTrailingSlash
  rw [List.getLastD_concat]
  simp [List.dropLast_concat]

/-- C5: slug-to-path and path-to-slug conversion are mutually inverse at all
three resource depths — for every accepted slug s in canonical form (no
trailing slash), FromXPath (ToXPath s) = s; for every accepted path p,
ToXPath (FromXPath p) = p; and each of the six conversion functions accepts
only inputs whose '/'-separated segment count matches its depth (1/2/3
segments for slugs after stripping the optional trailing slash, 2/4/6 for
paths), hence rejects any other segment count. -/
theorem C5_roundtrip :
    (∀ s p, ToCategoryPath s = .ok p → s.getLastD 'A' ≠ '/' →
      FromCategoryPath p = .ok s) ∧
    (∀ s p, ToEntryPath s = .ok p → s.getLastD 'A' ≠ '/' →
      FromEntryPath p = .ok s) ∧
    (∀ s p, ToChapterPath s = .ok p → FromChapterPath p = .ok s) ∧
    (∀ p s, FromCategoryPath p = .ok s → ToCategoryPath s = .ok p) ∧
    (∀ p s, FromEntryPath p = .ok s → ToEntryPath s = .ok p) ∧
    (∀ p s, FromChapterPath p = .ok s → ToChapterPath s = .ok p) ∧
    (∀ s, isOkB (ToCategoryPath s) = true → (splitSegs (dropTrailingSlash s)).length = 1) ∧
    (∀ s, isOkB (ToEntryPath s) = true → (splitSegs (dropTrailingSlash s)).length = 2) ∧
    (∀ s, isOkB (ToChapterPath s) = true → (splitSegs (dropTrailingSlash s)).length = 3) ∧
    (∀ p, isOkB (FromCategoryPath p) = true → (splitSegs p).length = 2) ∧
    (∀ p, isOkB (FromEntryPath p) = true → (splitSegs p).length = 4) ∧
    (∀ p, isOkB (FromChapterPath p) = true → (splitSegs p).length = 6) := by
  refine ⟨?_, ?_, ?_, ?_, ?_, ?_, ?_, ?_, ?_, ?_, ?_, ?_⟩
  · intro s p h hc
    obtain ⟨a, ha, rfl, hs | hs⟩ := ToCategoryPath_ok h
    · subst hs
      exact FromCategoryPath_build ha
    · subst hs
      rw [List.getLastD_concat] at hc
      exact absurd rfl hc
  · intro s p h hc
    obtain ⟨a, b, ha, hb, rfl, hs | hs⟩ := ToEntryPath_ok h
    · subst hs
      exact FromEntryPath_build ha hb
    · subst hs
      rw [show a ++ '/' :: (b ++ ['/']) = (a ++ '/' :: b) ++ ['/'] by simp,
        List.getLastD_concat] at hc
      exact absurd rfl hc
  · intro s p h
    obtain ⟨a, b, c, ha, hb, hcid, rfl, rfl⟩ := ToChapterPath_ok h
    exact FromChapterPath_build ha hb hcid
  · intro p s h
    obtain ⟨ha, rfl⟩ := FromCategoryPath_ok h
    exact ToCategoryPath_build ha
  · intro p s h
    obtain ⟨a, b, ha, hb, rfl, rfl⟩ := FromEntryPath_ok h
    exact ToEntryPath_build ha hb
  · intro p s h
    obtain ⟨a, b, c, ha, hb, hcid, rfl, rfl⟩ := FromChapterPath_ok h
    exact ToChapterPath_build ha hb hcid
  · intro s hok
    cases hts : ToCategoryPath s with
    | error e => rw [hts] at hok; simp [isOkB] at hok
    | ok p =>
      obtain ⟨a, ha, rfl, hs | hs⟩ := ToCategoryPath_ok hts
      · subst hs
        rw [dropTrailingSlash_eq_self (resourceID_getLastD_ne_slash ha),
          splitSegs_of_noSlash (noSlash_of_isResourceID ha)]
        rfl
      · subst hs
        rw [dropTrailingSlash_concat, splitSegs_of_noSlash (noSlash_of_isResourceID ha)]
        rfl
  · intro s hok
    cases hts : ToEntryPath s with
    | error e => rw [hts] at hok; simp [isOkB] at hok
    | ok p =>
      obtain ⟨a, b, ha, hb, rfl, hs | hs⟩ := ToEntryPath_ok hts
      · subst hs
        have hlast : (a ++ '/' :: b).getLastD 'A' ≠ '/' := by
          rw [show a ++ '/' :: b = (a ++ ['/']) ++ b by simp,
            getLastD_append_resourceID hb]
          exact resourceID_getLastD_ne_slash hb
        rw [dropTrailingSlash_eq_self hlast,
          splitSegs_append (noSlash_of_isResourceID ha),
          splitSegs_of_noSlash (noSlash_of_isResourceID hb)]
        rfl
      · subst hs
        rw [show a ++ '/' :: (b ++ ['/']) = (a ++ '/' :: b) ++ ['/'] by simp,
          dropTrailingSlash_concat,
          splitSegs_append (noSlash_of_isResourceID ha),
          splitSegs_of_noSlash (noSlash_of_isResourceID hb)]
        rfl
  · intro s hok
    cases hts : ToChapterPath s with
    | error e => rw [hts] at hok; simp [isOkB] at hok
    | ok p =>
      obtain ⟨a, b, c, ha, hb, hcid, rfl, rfl⟩ := ToChapterPath_ok hts
      have hlast : (a ++ '/' :: (b ++ '/' :: c)).getLastD 'A' ≠ '/' := by
        rw [show a ++ '/' :: (b ++ '/' :: c) = (a ++ '/' :: (b ++ ['/'])) ++ c by simp,
          getLastD_append_resourceID hcid]
        exact resourceID_getLastD_ne_slash hcid
      rw [dropTrailingSlash_eq_self hlast,
        splitSegs_append (noSlash_of_isResourceID ha),
        splitSegs_append (noSlash_of_isResourceID hb),
        splitSegs_of_noSlash (noSlash_of_isResourceID hcid)]
      rfl
  · intro p hok
    cases hfs : FromCategoryPath p with
    | error e => rw [hfs] at hok; simp [isOkB] at hok
    | ok s =>
      obtain ⟨ha, rfl⟩ := FromCategoryPath_ok hfs
      rw [splitSegs_append (by decide), splitSegs_of_noSlash (noSlash_of_isResourceID ha)]
      rfl
  · intro p hok
    cases hfs : FromEntryPath p with
    | error e => rw [hfs] at hok; simp [isOkB] at hok
    | ok s =>
      obtain ⟨a, b, ha, hb, rfl, rfl⟩ := FromEntryPath_ok hfs
      rw [splitSegs_append (by decide), splitSegs_append (noSlash_of_isResourceID ha),
        splitSegs_append (by decide), splitSegs_of_noSlash (noSlash_of_isResourceID hb)]
      rfl
  · intro p hok
    cases hfs : FromChapterPath p with
    | error e => rw [hfs] at hok; simp [isOkB] at hok
    | ok s =>
      obtain ⟨a, b, c, ha, hb, hcid, rfl, rfl⟩ := FromChapterPath_ok hfs
      rw [splitSegs_append (by decide), splitSegs_append (noSlash_of_isResourceID ha),
        splitSegs_append (by decide), splitSegs_append (noSlash_of_isResourceID hb),
        splitSegs_append (by decide), splitSegs_of_noSlash (noSlash_of_isResourceID hcid)]
      rfl

/-- Witness for C5_roundtrip at concrete slugs and paths. -/
theorem C5_roundtrip_witness :
    FromCategoryPath "categories/abc".toList = .ok "abc".toList ∧
    ToEntryPath "a/b".toList = .ok "categories/a/entries/b".toList :=
  ⟨C5_roundtrip.1 "abc".toList "categories/abc".toList (by rfl) (by decide),
   C5_roundtrip.2.2.2.2.1 "categories/a/entries/b".toList "a/b".toList (by rfl)⟩

/-- C9: trailing-slash acceptance is asymmetric across depths — for valid
category and entry slugs the conversion also accepts the slug with a
trailing '/' and maps it to the same path (the category and entry slug
patterns are compiled with an optional trailing slash), whereas
ToChapterPath rejects every input ending in '/' with ErrInvalidSlug (its
pattern is compiled without the optional slash). -/
theorem C9_trailing_slash :
    (∀ a, isResourceID a = true →
      ToCategoryPath (a ++ ['/']) = ToCategoryPath a ∧
      isOkB (ToCategoryPath a) = true) ∧
    (∀ a b, isResourceID a = true → isResourceID b = true →
      ToEntryPath (a ++ '/' :: (b ++ ['/'])) = ToEntryPath (a ++ '/' :: b) ∧
      isOkB (ToEntryPath (a ++ '/' :: b)) = true) ∧
    (∀ s, ToChapterPath (s ++ ['/']) = .error .invalidSlug) := by
  refine ⟨?_, ?_, ?_⟩
  · intro a ha
    constructor
    · rw [ToCategoryPath_build ha]
      unfold ToCategoryPath
      rw [splitSegs_append_slash, splitSegs_of_noSlash (noSlash_of_isResourceID ha)]
      simp [ha]
    · rw [ToCategoryPath_build ha]
      rfl
  · intro a b ha hb
    constructor
    · rw [ToEntryPath_build ha hb]
      rw [show a ++ '/' :: (b ++ ['/']) = (a ++ '/' :: b) ++ ['/'] by simp]
      unfold ToEntryPath
      rw [splitSegs_append_slash, splitSegs_append (noSlash_of_isResourceID ha),
        splitSegs_of_noSlash (noSlash_of_isResourceID hb)]
      simp [ha, hb]
    · rw [ToEntryPath_build ha hb]
      rfl
  · intro s
    unfold ToChapterPath
    rw [splitSegs_append_slash]
    match h : splitSegs s with
    | [] => exact absurd h (splitSegs_ne_nil s)
    | [a] => rfl
    | [a, b] => simp [isResourceID]
    | a :: b :: c :: rest => cases rest <;> rfl

/-- Witness for C9_trailing_slash at concrete slugs. -/
theorem C9_trailing_slash_witness :
    (ToCategoryPath ("abc".toList ++ ['/']) = ToCategoryPath "abc".toList ∧
      isOkB (ToCategoryPath "abc".toList) = true) ∧
    ToChapterPath ("a/b/c".toList ++ ['/']) = .error .invalidSlug :=
  ⟨C9_trailing_slash.1 "abc".toList (by decide),
   C9_trailing_slash.2.2 "a/b/c".toList⟩

/-! ## Scraper: row timestamp year inference

parseRowTimestamp (scraper) parses a listing-row timestamp.  The recent
format "Jan _2 15:04" omits the year, which is inferred from the parent's
Last-Modified time and the current time by the switch statement embedded
below in inferYear.  Calendar instants are modeled by their broken-down
fields; only the fields the code reads (year, month) drive the inference. -/

/-- A broken-down calendar timestamp (the fields time.Date receives). -/
structure DateTime where
  year : Int
  month : Int
  day : Int
  hour : Int
  minute : Int
  second : Int
deriving DecidableEq, Repr

/-- The year-inference switch of parseRowTimestamp:
- parent.Year() < now.Year(): use parent's year, minus one more when
  parent.Month() < parsed.Month();
- else if now.Month() < parsed.Month(): now's year minus one;
- else: now's year. -/
def inferYear (parentYear parentMonth nowYear nowMonth rowMonth : Int) : Int :=
  if parentYear < nowYear then
    if parentMonth < rowMonth then parentYear - 1 else parentYear
  else if nowMonth < rowMonth then nowYear - 1
  else nowYear

/-- parseRowTimestamp on a recent-format row (month/day/time parsed, year
inferred): rebuilds the date with the inferred year and the parsed month,
day, hour, minute, second. -/
def parseRowTimestampRecent (parsed parent now : DateTime) : DateTime :=
  { parsed with
    year := inferYear parent.year parent.month now.year now.month parsed.month }

/-- C2: for a recent-format row, the inferred year is: parent.year when
parent.year < now.year and parent.month >= row.month; parent.year - 1 when
parent.year < now.year and parent.month < row.month; now.year - 1 when
parent.year >= now.year and now.month < row.month; and now.year otherwise. -/
theorem C2_year_inference (parsed parent now : DateTime) :
    (parent.year < now.year → parent.month ≥ parsed.month →
      (parseRowTimestampRecent parsed parent now).year = parent.year) ∧
    (parent.year < now.year → parent.month < parsed.month →
      (parseRowTimestampRecent parsed parent now).year = parent.year - 1) ∧
    (parent.year ≥ now.year → now.month < parsed.month →
      (parseRowTimestampRecent parsed parent now).year = now.year - 1) ∧
    (parent.year ≥ now.year → now.month ≥ parsed.month →
      (parseRowTimestampRecent parsed parent now).year = now.year) := by
  unfold parseRowTimestampRecent inferYear
  refine ⟨?_, ?_, ?_, ?_⟩ <;> intro h1 h2 <;> simp only []
  · rw [if_pos h1, if_neg (by omega)]
  · rw [if_pos h1, if_pos h2]
  · rw [if_neg (by omega), if_pos h2]
  · rw [if_neg (by omega), if_neg (by omega)]

/-- Witness for C2_year_inference: a row from December observed by a
January parent snapshot that is itself a year behind the current time. -/
theorem C2_year_inference_witness :
    (parseRowTimestampRecent ⟨0, 12, 30, 23, 59, 0⟩ ⟨2023, 1, 15, 0, 0, 0⟩
      ⟨2024, 2, 1, 0, 0, 0⟩).year = 2022 :=
  (C2_year_inference ⟨0, 12, 30, 23, 59, 0⟩ ⟨2023, 1, 15, 0, 0, 0⟩
    ⟨2024, 2, 1, 0, 0, 0⟩).2.1 (by decide) (by decide)

/-! ## Connect error codes and pagination tokens

Error codes are the connect.Code values the archive chain produces.
pagination.FromToken decodes base64url, proto-unmarshals, then
protovalidate-validates; each failing step yields a TokenError wrapping
that cause.  The three steps run in external libraries
(encoding/base64, protobuf, protovalidate), so they are parameters of the
embedding; FromToken itself is the control flow of the source. -/

/-- The connect error codes used by the archive chain. -/
inductive Code where
  | invalidArgument : Code
  | notFound : Code
  | permissionDenied : Code
  | alreadyExists : Code
  | internal : Code
deriving DecidableEq, Repr

/-- A connect error (the code is all the claims observe). -/
structure ConnectErr where
  code : Code
deriving DecidableEq, Repr

/-- pagination.TokenError, tagged by which step caused it. -/
inductive TokenError where
  | decodeFailed : TokenError
  | unmarshalFailed : TokenError
  | validateFailed : TokenError
deriving DecidableEq, Repr

/-- pagination.FromToken: base64url-decode the token string, proto-unmarshal
the bytes, validate the message; the first failing step aborts with a
TokenError. -/
def FromToken {B Tkn E1 E2 E3 : Type} (decode : String → Except E1 B)
    (unmarshal : B → Except E2 Tkn) (validateTok : Tkn → Except E3 Unit)
    (tkn : String) : Except TokenError Tkn :=
  match decode tkn with
  | .error _ => .error .decodeFailed
  | .ok data =>
    match unmarshal data with
    | .error _ => .error .unmarshalFailed
    | .ok msg =>
      match validateTok msg with
      | .error _ => .error .validateFailed
      | .ok _ => .ok msg

/-! ## Result-list elements and per-operation pagination tokens

Entry update times are modeled as Int instants; proto.Equal on the
normalized timestamp messages and time.Time Equal/Before agree with Int
equality and order on them. -/

/-- A category result (the paginator reads only its path). -/
structure Category where
  path : String
deriving DecidableEq, Repr, Inhabited

/-- An entry result (the paginator reads its path and update time). -/
structure Entry where
  path : String
  updateTime : Int
deriving DecidableEq, Repr, Inhabited

/-- A chapter result. -/
structure Chapter where
  path : String
deriving DecidableEq, Repr, Inhabited

/-- A user result. -/
structure User where
  path : String
deriving DecidableEq, Repr, Inhabited

/-- ListCategoriesPaginationToken. -/
structure ListCategoriesPaginationToken where
  afterCategory : String
deriving DecidableEq, Repr

/-- ListEntriesPaginationToken: cursor plus the upstream-page counter. -/
structure ListEntriesPaginationToken where
  page : Int
  afterEntry : String
  startUpdateTime : Int
deriving DecidableEq, Repr

/-- ListChaptersPaginationToken. -/
structure ListChaptersPaginationToken where
  afterChapter : String
deriving DecidableEq, Repr

/-- ListUsersPaginationToken. -/
structure ListUsersPaginationToken where
  afterUser : String
deriving DecidableEq, Repr

/-- A list request as the paginator reads it: page_token, filter,
max_page_size (int32). -/
structure ListReq where
  pageToken : String
  filter : String
  maxPageSize : Int
deriving DecidableEq, Repr

/-- A list response: the results and the next-page token.  The response
token is carried in decoded form: pagination.ToToken is an injective
serialization of the token message, so the token value stands for its
encoded string; its failure paths concern only tokens the server itself
built and are not observed by the claims. -/
structure ListState (α Tkn : Type) where
  results : List α
  nextPageToken : Option Tkn
deriving DecidableEq, Repr

/-! ## paginator.go: the three stages of applyPagination -/

/-- applyToken: an empty page_token is a no-op; otherwise the token is
decoded with pagination.FromToken (failure is InvalidArgument) and the
per-operation cursor closure is applied to the response state. -/
def applyToken {Tkn σ : Type} (fromTok : String → Except TokenError Tkn)
    (pageTkn : String) (applyFn : Tkn → σ → σ) (st : σ) : Except ConnectErr σ :=
  if pageTkn = "" then .ok st
  else
    match fromTok pageTkn with
    | .error _ => .error ⟨.invalidArgument⟩
    | .ok tkn => .ok (applyFn tkn st)

/-- applyFilter: skipped when the filter string is empty or the (already
token-sliced) results are empty; otherwise the filter is compiled against
the operation's CEL environment and evaluated as results.filter(this, f).
compileFn stands for the external CEL compile+eval pipeline: a compile or
evaluation failure is InvalidArgument, success yields the element
predicate. -/
def applyFilter {α : Type} (compileFn : String → Except String (α → Bool))
    (filterStr : String) (results : List α) : Except ConnectErr (List α) :=
  if filterStr = "" || results.isEmpty then .ok results
  else
    match compileFn filterStr with
    | .error _ => .error ⟨.invalidArgument⟩
    | .ok p => .ok (results.filter p)

/-- applyPageSize: a no-op when max_page_size <= 0 or fewer results than
the size remain; otherwise the per-operation closure truncates the results
to the size and builds the continuation token from the response's current
token (nil when the inner layer set none), which is then stored on the
response.  The closure always returns a valid token in all four
operations, so the token is always set in this branch. -/
def applyPageSize {α Tkn : Type} (maxPageSize : Int)
    (applyFn : Nat → Option Tkn → List α → List α × Tkn)
    (st : ListState α Tkn) : ListState α Tkn :=
  if maxPageSize ≤ 0 || (st.results.length : Int) < maxPageSize then st
  else
    let sized := applyFn maxPageSize.toNat st.nextPageToken st.results
    { results := sized.1, nextPageToken := some sized.2 }

/-! ## paginator.go: the per-operation closures -/

/-- The ListCategories applyPageTokenFn: drop through the exact path match;
otherwise resume at the first path after the cursor (cmp.Less), else
nothing remains. -/
def categoriesApplyPageTokenFn (tkn : ListCategoriesPaginationToken)
    (results : List Category) : List Category :=
  match results.findIdx? (fun cat => cat.path == tkn.afterCategory) with
  | some idx => results.drop (idx + 1)
  | none =>
    match results.findIdx? (fun cat => decide (tkn.afterCategory < cat.path)) with
    | some idx => results.drop idx
    | none => []

/-- The ListCategories applyPageSizeFn: keep the first size results and
point the token at the last retained path. -/
def categoriesApplyPageSizeFn (size : Nat)
    (prev : Option ListCategoriesPaginationToken) (results : List Category) :
    List Category × ListCategoriesPaginationToken :=
  let retained := results.take size
  let tkn := prev.getD { afterCategory := "" }
  (retained, { tkn with afterCategory := (retained.getLastD default).path })

/-- The ListEntries applyPageTokenFn: drop through the exact
(path, update_time) match, counting the entries after the cursor;
otherwise resume at the first entry with update time >= start_update_time;
otherwise the whole upstream page is behind the cursor and nothing
remains. -/
def entriesApplyPageTokenFn (tkn : ListEntriesPaginationToken)
    (results : List Entry) : List Entry × Nat :=
  match results.findIdx? (fun e =>
      e.path == tkn.afterEntry && e.updateTime == tkn.startUpdateTime) with
  | some idx => (results.drop (idx + 1), results.length - idx - 1)
  | none =>
    match results.findIdx? (fun e => decide (tkn.startUpdateTime ≤ e.updateTime)) with
    | some idx => (results.drop idx, results.length - idx)
    | none => ([], 0)

/-- The ListEntries applyPageSizeFn: keep the first size results; advance
the token's upstream-page counter when the cursor slice left at most size
entries (the page was consumed, not merely windowed); point the cursor at
the last retained entry. -/
def entriesApplyPageSizeFn (entriesAfterCursor : Nat) (size : Nat)
    (prev : Option ListEntriesPaginationToken) (results : List Entry) :
    List Entry × ListEntriesPaginationToken :=
  let retained := results.take size
  let tkn := prev.getD { page := 1, afterEntry := "", startUpdateTime := 0 }
  let tkn := if 0 < entriesAfterCursor && entriesAfterCursor ≤ size then
      { tkn with page := tkn.page + 1 }
    else tkn
  let last := retained.getLastD default
  (retained, { tkn with afterEntry := last.path, startUpdateTime := last.updateTime })

/-- The ListChapters applyPageTokenFn: drop through the exact path match;
no fallback — an absent cursor leaves the results untouched. -/
def chaptersApplyPageTokenFn (tkn : ListChaptersPaginationToken)
    (results : List Chapter) : List Chapter :=
  match results.findIdx? (fun ch => ch.path == tkn.afterChapter) with
  | some idx => results.drop (idx + 1)
  | none => results

/-- The ListChapters applyPageSizeFn. -/
def chaptersApplyPageSizeFn (size : Nat)
    (prev : Option ListChaptersPaginationToken) (results : List Chapter) :
    List Chapter × ListChaptersPaginationToken :=
  let retained := results.take size
  let tkn := prev.getD { afterChapter := "" }
  (retained, { tkn with afterChapter := (retained.getLastD default).path })

/-- The ListUsers applyPageTokenFn: drop through the exact path match; no
fallback. -/
def usersApplyPageTokenFn (tkn : ListUsersPaginationToken)
    (results : List User) : List User :=
  match results.findIdx? (fun u => u.path == tkn.afterUser) with
  | some idx => results.drop (idx + 1)
  | none => results

/-- The ListUsers applyPageSizeFn. -/
def usersApplyPageSizeFn (size : Nat)
    (prev : Option ListUsersPaginationToken) (results : List User) :
    List User × ListUsersPaginationToken :=
  let retained := results.take size
  let tkn := prev.getD { afterUser := "" }
  (retained, { tkn with afterUser := (retained.getLastD default).path })

/-! ## paginator.go: the four wrapped list operations

Each runs applyPagination over the inner (hydrated) response: applyToken,
then applyFilter, then applyPageSize, stopping at the first error. -/

/-- Paginator.ListCategories over the inner response. -/
def paginatorListCategories
    (fromTok : String → Except TokenError ListCategoriesPaginationToken)
    (compileFn : String → Except String (Category → Bool))
    (req : ListReq) (inner : ListState Category ListCategoriesPaginationToken) :
    Except ConnectErr (ListState Category ListCategoriesPaginationToken) :=
  match applyToken fromTok req.pageToken
      (fun tkn st => { st with results := categoriesApplyPageTokenFn tkn st.results })
      inner with
  | .error e => .error e
  | .ok st1 =>
    match applyFilter compileFn req.filter st1.results with
    | .error e => .error e
    | .ok filtered =>
      .ok (applyPageSize req.maxPageSize categoriesApplyPageSizeFn
        { st1 with results := filtered })

/-- Paginator.ListEntries over the inner response; the token closure also
captures entriesAfterCursor for the page-size closure. -/
def paginatorListEntries
    (fromTok : String → Except TokenError ListEntriesPaginationToken)
    (compileFn : String → Except String (Entry → Bool))
    (req : ListReq) (inner : ListState Entry ListEntriesPaginationToken) :
    Except ConnectErr (ListState Entry ListEntriesPaginationToken) :=
  match applyToken fromTok req.pageToken
      (fun tkn (st : ListState Entry ListEntriesPaginationToken × Nat) =>
        let sliced := entriesApplyPageTokenFn tkn st.1.results
        ({ st.1 with results := sliced.1 }, sliced.2))
      (inner, 0) with
  | .error e => .error e
  | .ok st1 =>
    match applyFilter compileFn req.filter st1.1.results with
    | .error e => .error e
    | .ok filtered =>
      .ok (applyPageSize req.maxPageSize (entriesApplyPageSizeFn st1.2)
        { st1.1 with results := filtered })

/-- Paginator.ListChapters over the inner response. -/
def paginatorListChapters
    (fromTok : String → Except TokenError ListChaptersPaginationToken)
    (compileFn : String → Except String (Chapter → Bool))
    (req : ListReq) (inner : ListState Chapter ListChaptersPaginationToken) :
    Except ConnectErr (ListState Chapter ListChaptersPaginationToken) :=
  match applyToken fromTok req.pageToken
      (fun tkn st => { st with results := chaptersApplyPageTokenFn tkn st.results })
      inner with
  | .error e => .error e
  | .ok st1 =>
    match applyFilter compileFn req.filter st1.results with
    | .error e => .error e
    | .ok filtered =>
      .ok (applyPageSize req.maxPageSize chaptersApplyPageSizeFn
        { st1 with results := filtered })

/-- Paginator.ListUsers over the inner response. -/
def paginatorListUsers
    (fromTok : String → Except TokenError ListUsersPaginationToken)
    (compileFn : String → Except String (User → Bool))
    (req : ListReq) (inner : ListState User ListUsersPaginationToken) :
    Except ConnectErr (ListState User ListUsersPaginationToken) :=
  match applyToken fromTok req.pageToken
      (fun tkn st => { st with results := usersApplyPageTokenFn tkn st.results })
      inner with
  | .error e => .error e
  | .ok st1 =>
    match applyFilter compileFn req.filter st1.results with
    | .error e => .error e
    | .ok filtered =>
      .ok (applyPageSize req.maxPageSize usersApplyPageSizeFn
        { st1 with results := filtered })

/-! ## Scraper.ListEntries (pagination-relevant behavior)

The scraper resolves the parent path to a slug (InvalidArgument on
failure), registers row and #scroll handlers, parses a non-empty request
token (InvalidArgument on failure; pagination flag initialized to
page > 1), visits the category page (page 1) or indexN-1.html (page N>1)
— modeled by fetch applied to the page number — during which the parsed
rows and the scroll-marker presence are collected, and finally builds a
next-page token when the page is paginated: cursor fields come from the
last parsed row, or placeholders (path "categories/xxx/entries/xxx",
start time now) when no row was parsed. -/

/-- One fetched upstream category listing page: the successfully parsed
entry rows in order, and whether the #scroll marker element is present. -/
structure EntriesPage where
  rows : List Entry
  hasScrollMarker : Bool
deriving DecidableEq, Repr

/-- The tail of Scraper.ListEntries after the visit: build the response
from the parsed rows and the pagination flag (scroll marker OR the
token-derived flag); when paginated, the next-page token cursor comes from
the last parsed row, or is the placeholder when no row was parsed. -/
def scraperListEntriesCore (nowTime : Int) (page : ListEntriesPaginationToken)
    (tokenPaginated : Bool) (content : EntriesPage) :
    ListState Entry ListEntriesPaginationToken :=
  let paginated := content.hasScrollMarker || tokenPaginated
  let results := content.rows
  if paginated then
    let nextPage : ListEntriesPaginationToken :=
      match results.getLast? with
      | some last =>
        { page := page.page, afterEntry := last.path,
          startUpdateTime := last.updateTime }
      | none =>
        { page := page.page, afterEntry := "categories/xxx/entries/xxx",
          startUpdateTime := nowTime }
    { results := results, nextPageToken := some nextPage }
  else
    { results := results, nextPageToken := none }

/-- Scraper.ListEntries. -/
def scraperListEntries
    (fromTok : String -> Except TokenError ListEntriesPaginationToken)
    (fetch : Int -> EntriesPage) (nowTime : Int) (parent : List Char)
    (pageToken : String) :
    Except ConnectErr (ListState Entry ListEntriesPaginationToken) :=
  match FromCategoryPath parent with
  | .error _ => .error (ConnectErr.mk .invalidArgument)
  | .ok _ =>
    if pageToken = "" then
      .ok (scraperListEntriesCore nowTime
        { page := 1, afterEntry := "", startUpdateTime := 0 } false (fetch 1))
    else
      match fromTok pageToken with
      | .error _ => .error (ConnectErr.mk .invalidArgument)
      | .ok tkn =>
        .ok (scraperListEntriesCore nowTime tkn (decide (1 < tkn.page))
          (fetch tkn.page))

theorem scraperListEntriesCore_spec (nowTime : Int)
    (page : ListEntriesPaginationToken) (tokenPaginated : Bool)
    (content : EntriesPage) :
    (scraperListEntriesCore nowTime page tokenPaginated content).nextPageToken.isSome
        = (content.hasScrollMarker || tokenPaginated) ∧
    (scraperListEntriesCore nowTime page tokenPaginated content).results
        = content.rows := by
  unfold scraperListEntriesCore
  by_cases hp : (content.hasScrollMarker || tokenPaginated) = true
  · rw [if_pos hp]
    simp [hp]
  · rw [if_neg hp]
    simp only [Bool.not_eq_true] at hp
    simp [hp]

/-- C3 (counterexample): the claim says a non-empty next_page_token is
returned only when the page is paginated AND at least one row was parsed,
and that an empty results list comes with an empty token.  On a paginated
page (scroll marker present) with zero parseable rows the scraper still
returns a token, with the placeholder cursor. -/
theorem C3_counterexample :
    scraperListEntries (fun _ => .error .decodeFailed)
      (fun _ => { rows := [], hasScrollMarker := true }) 7
      "categories/cat".toList "" =
      .ok { results := [],
            nextPageToken := some
              { page := 1, afterEntry := "categories/xxx/entries/xxx",
                startUpdateTime := 7 } } := by
  rfl

/-- C3 (amended): the response carries a non-empty next_page_token exactly
when the category page is detected as paginated — the #scroll marker is
present, or the request's token names a page greater than 1 — regardless
of whether any entry row was parsed; with zero parsed rows the token
cursor is the placeholder path and the current time. -/
theorem C3_amended
    (fromTok : String -> Except TokenError ListEntriesPaginationToken)
    (fetch : Int -> EntriesPage) (nowTime : Int) (parent : List Char)
    (pageToken : String) (tkn : ListEntriesPaginationToken)
    (out : ListState Entry ListEntriesPaginationToken) :
    (pageToken = "" →
      scraperListEntries fromTok fetch nowTime parent pageToken = .ok out →
      (out.nextPageToken.isSome = (fetch 1).hasScrollMarker ∧
        out.results = (fetch 1).rows)) ∧
    (pageToken ≠ "" → fromTok pageToken = .ok tkn →
      scraperListEntries fromTok fetch nowTime parent pageToken = .ok out →
      (out.nextPageToken.isSome =
          ((fetch tkn.page).hasScrollMarker || decide (1 < tkn.page)) ∧
        out.results = (fetch tkn.page).rows)) := by
  constructor
  · intro hpt hrun
    subst hpt
    unfold scraperListEntries at hrun
    cases hconv : FromCategoryPath parent with
    | error e => rw [hconv] at hrun; cases hrun
    | ok slug =>
      rw [hconv, if_pos rfl] at hrun
      injection hrun with hrun
      subst hrun
      simpa using scraperListEntriesCore_spec nowTime
        { page := 1, afterEntry := "", startUpdateTime := 0 } false (fetch 1)
  · intro hpt htok hrun
    unfold scraperListEntries at hrun
    cases hconv : FromCategoryPath parent with
    | error e => rw [hconv] at hrun; cases hrun
    | ok slug =>
      rw [hconv, if_neg hpt, htok] at hrun
      injection hrun with hrun
      subst hrun
      exact scraperListEntriesCore_spec nowTime tkn (decide (1 < tkn.page))
        (fetch tkn.page)

/-- A decoder recognizing the single token "p2tok" (page 2 cursor). -/
def fromTokC3 : String -> Except TokenError ListEntriesPaginationToken :=
  fun s =>
    if s = "p2tok" then
      .ok { page := 2, afterEntry := "categories/c/entries/e", startUpdateTime := 5 }
    else .error .decodeFailed

/-- A fixed upstream category page with one row and no scroll marker. -/
def fetchC3 : Int -> EntriesPage :=
  fun _ =>
    { rows := [{ path := "categories/c/entries/f", updateTime := 9 }],
      hasScrollMarker := false }

/-- The token fromTokC3 yields for "p2tok". -/
def tknC3 : ListEntriesPaginationToken :=
  { page := 2, afterEntry := "categories/c/entries/e", startUpdateTime := 5 }

/-- The response scraperListEntries produces in the C3 witness scenario. -/
def outC3 : ListState Entry ListEntriesPaginationToken :=
  { results := [{ path := "categories/c/entries/f", updateTime := 9 }],
    nextPageToken := some
      { page := 2, afterEntry := "categories/c/entries/f", startUpdateTime := 9 } }

/-- Witness for C3_amended: a request token naming page 2 makes the
response paginated even without a scroll marker. -/
theorem C3_amended_witness :
    outC3.nextPageToken.isSome =
      ((fetchC3 tknC3.page).hasScrollMarker || decide (1 < tknC3.page)) ∧
    outC3.results = (fetchC3 tknC3.page).rows :=
  (C3_amended fromTokC3 fetchC3 7 "categories/c".toList "p2tok" tknC3 outC3).2
    (by decide) (by rfl) (by rfl)

/-! ## Stage-evaluation lemmas for the paginator -/

theorem applyToken_skip {Tkn σ : Type} (fromTok : String → Except TokenError Tkn)
    (applyFn : Tkn → σ → σ) (st : σ) :
    applyToken fromTok "" applyFn st = .ok st := by
  unfold applyToken
  rw [if_pos rfl]

theorem applyToken_ok {Tkn σ : Type} (fromTok : String → Except TokenError Tkn)
    (pageTkn : String) (applyFn : Tkn → σ → σ) (st : σ) (tkn : Tkn)
    (hpt : pageTkn ≠ "") (htok : fromTok pageTkn = .ok tkn) :
    applyToken fromTok pageTkn applyFn st = .ok (applyFn tkn st) := by
  unfold applyToken
  rw [if_neg hpt, htok]

theorem applyToken_err {Tkn σ : Type} (fromTok : String → Except TokenError Tkn)
    (pageTkn : String) (applyFn : Tkn → σ → σ) (st : σ) (e : TokenError)
    (hpt : pageTkn ≠ "") (htok : fromTok pageTkn = .error e) :
    applyToken fromTok pageTkn applyFn st = .error ⟨.invalidArgument⟩ := by
  unfold applyToken
  rw [if_neg hpt, htok]

theorem applyFilter_ok {α : Type} (compileFn : String → Except String (α → Bool))
    (filterStr : String) (results : List α) (p : α → Bool)
    (hfl : filterStr ≠ "") (hcomp : compileFn filterStr = .ok p) :
    applyFilter compileFn filterStr results = .ok (results.filter p) := by
  unfold applyFilter
  have hfl' : decide (filterStr = "") = false := by simpa using hfl
  cases hemp : results with
  | nil => rw [hfl']; rfl
  | cons a l =>
    rw [hfl']
    simp only [List.isEmpty_cons, Bool.false_or, Bool.or_self]
    rw [if_neg (by simp), hcomp]

/-- The slice applyPageSize performs on the result list: identity below the
threshold, take otherwise. -/
def sliceBySize {α : Type} (maxPageSize : Int) (l : List α) : List α :=
  if maxPageSize ≤ 0 || (l.length : Int) < maxPageSize then l
  else l.take maxPageSize.toNat

theorem applyPageSize_results {α Tkn : Type} (maxPageSize : Int)
    (applyFn : Nat → Option Tkn → List α → List α × Tkn)
    (st : ListState α Tkn)
    (htake : ∀ size prev results, (applyFn size prev results).1 = results.take size) :
    (applyPageSize maxPageSize applyFn st).results =
      sliceBySize maxPageSize st.results := by
  unfold applyPageSize sliceBySize
  by_cases hc : (decide (maxPageSize ≤ 0) || decide ((st.results.length : Int) < maxPageSize)) = true
  · rw [if_pos hc, if_pos hc]
  · rw [if_neg hc, if_neg hc]
    exact htake _ _ _

/-- C6: for every list operation the paginator applies, in this fixed
order, cursor-token application, then filter evaluation, then
max_page_size slicing: whenever the request carries a decodable token and
a compilable filter, the final results equal the size-slice of the
filtered cursor-sliced inner results — the filter sees only elements that
survived the cursor, and the size cut applies only to elements that
satisfied the filter. -/
theorem C6_stage_order :
    (∀ (fromTok : String → Except TokenError ListCategoriesPaginationToken)
      (compileFn : String → Except String (Category → Bool))
      (req : ListReq) (inner : ListState Category ListCategoriesPaginationToken)
      (tkn : ListCategoriesPaginationToken) (p : Category → Bool)
      (out : ListState Category ListCategoriesPaginationToken),
      req.pageToken ≠ "" → fromTok req.pageToken = .ok tkn →
      req.filter ≠ "" → compileFn req.filter = .ok p →
      paginatorListCategories fromTok compileFn req inner = .ok out →
      out.results = sliceBySize req.maxPageSize
        ((categoriesApplyPageTokenFn tkn inner.results).filter p)) ∧
    (∀ (fromTok : String → Except TokenError ListEntriesPaginationToken)
      (compileFn : String → Except String (Entry → Bool))
      (req : ListReq) (inner : ListState Entry ListEntriesPaginationToken)
      (tkn : ListEntriesPaginationToken) (p : Entry → Bool)
      (out : ListState Entry ListEntriesPaginationToken),
      req.pageToken ≠ "" → fromTok req.pageToken = .ok tkn →
      req.filter ≠ "" → compileFn req.filter = .ok p →
      paginatorListEntries fromTok compileFn req inner = .ok out →
      out.results = sliceBySize req.maxPageSize
        (((entriesApplyPageTokenFn tkn inner.results).1).filter p)) ∧
    (∀ (fromTok : String → Except TokenError ListChaptersPaginationToken)
      (compileFn : String → Except String (Chapter → Bool))
      (req : ListReq) (inner : ListState Chapter ListChaptersPaginationToken)
      (tkn : ListChaptersPaginationToken) (p : Chapter → Bool)
      (out : ListState Chapter ListChaptersPaginationToken),
      req.pageToken ≠ "" → fromTok req.pageToken = .ok tkn →
      req.filter ≠ "" → compileFn req.filter = .ok p →
      paginatorListChapters fromTok compileFn req inner = .ok out →
      out.results = sliceBySize req.maxPageSize
        ((chaptersApplyPageTokenFn tkn inner.results).filter p)) ∧
    (∀ (fromTok : String → Except TokenError ListUsersPaginationToken)
      (compileFn : String → Except String (User → Bool))
      (req : ListReq) (inner : ListState User ListUsersPaginationToken)
      (tkn : ListUsersPaginationToken) (p : User → Bool)
      (out : ListState User ListUsersPaginationToken),
      req.pageToken ≠ "" → fromTok req.pageToken = .ok tkn →
      req.filter ≠ "" → compileFn req.filter = .ok p →
      paginatorListUsers fromTok compileFn req inner = .ok out →
      out.results = sliceBySize req.maxPageSize
        ((usersApplyPageTokenFn tkn inner.results).filter p)) := by
  refine ⟨?_, ?_, ?_, ?_⟩
  · intro fromTok compileFn req inner tkn p out hpt htok hfl hcomp hrun
    unfold paginatorListCategories at hrun
    rw [applyToken_ok fromTok req.pageToken _ inner tkn hpt htok] at hrun
    dsimp only at hrun
    rw [applyFilter_ok compileFn req.filter _ p hfl hcomp] at hrun
    dsimp only at hrun
    injection hrun with hrun
    subst hrun
    exact applyPageSize_results _ _ _ (fun _ _ _ => rfl)
  · intro fromTok compileFn req inner tkn p out hpt htok hfl hcomp hrun
    unfold paginatorListEntries at hrun
    rw [applyToken_ok fromTok req.pageToken _ (inner, 0) tkn hpt htok] at hrun
    dsimp only at hrun
    rw [applyFilter_ok compileFn req.filter _ p hfl hcomp] at hrun
    dsimp only at hrun
    injection hrun with hrun
    subst hrun
    exact applyPageSize_results _ _ _ (fun _ _ _ => rfl)
  · intro fromTok compileFn req inner tkn p out hpt htok hfl hcomp hrun
    unfold paginatorListChapters at hrun
    rw [applyToken_ok fromTok req.pageToken _ inner tkn hpt htok] at hrun
    dsimp only at hrun
    rw [applyFilter_ok compileFn req.filter _ p hfl hcomp] at hrun
    dsimp only at hrun
    injection hrun with hrun
    subst hrun
    exact applyPageSize_results _ _ _ (fun _ _ _ => rfl)
  · intro fromTok compileFn req inner tkn p out hpt htok hfl hcomp hrun
    unfold paginatorListUsers at hrun
    rw [applyToken_ok fromTok req.pageToken _ inner tkn hpt htok] at hrun
    dsimp only at hrun
    rw [applyFilter_ok compileFn req.filter _ p hfl hcomp] at hrun
    dsimp only at hrun
    injection hrun with hrun
    subst hrun
    exact applyPageSize_results _ _ _ (fun _ _ _ => rfl)

/-- The entriesAfterCursor count equals the length of the cursor-sliced
list, in every branch of the entries token closure. -/
theorem entriesApplyPageTokenFn_count (tkn : ListEntriesPaginationToken)
    (results : List Entry) :
    (entriesApplyPageTokenFn tkn results).2 =
      (entriesApplyPageTokenFn tkn results).1.length := by
  unfold entriesApplyPageTokenFn
  cases h1 : results.findIdx? (fun e =>
      e.path == tkn.afterEntry && e.updateTime == tkn.startUpdateTime) with
  | some idx =>
    dsimp only
    rw [List.length_drop]
    omega
  | none =>
    cases h2 : results.findIdx? (fun e => decide (tkn.startUpdateTime ≤ e.updateTime)) with
    | some idx =>
      dsimp only
      rw [List.length_drop]
    | none => rfl

/-- C4: in a ListEntries call through the Paginator where a cursor token
was applied and a max_page_size truncation occurs, the continuation
token's upstream-page counter is incremented exactly when the retained
page consumed every element positioned after the cursor in the pre-filter
result set (the upstream page is exhausted), and is left at the inner
token's value otherwise (the page is merely windowed). -/
theorem C4_upstream_page_advance
    (fromTok : String → Except TokenError ListEntriesPaginationToken)
    (compileFn : String → Except String (Entry → Bool))
    (req : ListReq) (inner : ListState Entry ListEntriesPaginationToken)
    (tkn : ListEntriesPaginationToken) (p : Entry → Bool)
    (out : ListState Entry ListEntriesPaginationToken)
    (hpt : req.pageToken ≠ "") (htok : fromTok req.pageToken = .ok tkn)
    (hfil : applyFilter compileFn req.filter (entriesApplyPageTokenFn tkn inner.results).1
      = .ok ((entriesApplyPageTokenFn tkn inner.results).1.filter p))
    (hpos : 0 < req.maxPageSize)
    (hlen : req.maxPageSize ≤
      ((((entriesApplyPageTokenFn tkn inner.results).1.filter p).length : Int)))
    (hrun : paginatorListEntries fromTok compileFn req inner = .ok out) :
    ∃ t', out.nextPageToken = some t' ∧
      out.results =
        ((entriesApplyPageTokenFn tkn inner.results).1.filter p).take req.maxPageSize.toNat ∧
      (out.results = (entriesApplyPageTokenFn tkn inner.results).1 →
        t'.page = (inner.nextPageToken.getD ⟨1, "", 0⟩).page + 1) ∧
      (out.results ≠ (entriesApplyPageTokenFn tkn inner.results).1 →
        t'.page = (inner.nextPageToken.getD ⟨1, "", 0⟩).page) := by
  unfold paginatorListEntries at hrun
  rw [applyToken_ok fromTok req.pageToken _ (inner, 0) tkn hpt htok] at hrun
  dsimp only at hrun
  rw [hfil] at hrun
  dsimp only at hrun
  injection hrun with hrun
  subst hrun
  have hsize : ((req.maxPageSize.toNat : Int)) = req.maxPageSize :=
    Int.toNat_of_nonneg (le_of_lt hpos)
  have hszle : req.maxPageSize.toNat ≤
      ((entriesApplyPageTokenFn tkn inner.results).1.filter p).length := by
    omega
  have hszpos : 0 < req.maxPageSize.toNat := by omega
  have hfle : ((entriesApplyPageTokenFn tkn inner.results).1.filter p).length ≤
      (entriesApplyPageTokenFn tkn inner.results).1.length :=
    List.length_filter_le _ _
  have hcnt := entriesApplyPageTokenFn_count tkn inner.results
  -- the truncation branch of applyPageSize is taken
  unfold applyPageSize
  rw [if_neg (by
    simp only [Bool.or_eq_true, decide_eq_true_eq, not_or]
    constructor
    · omega
    · dsimp only
      omega)]
  dsimp only
  have hfst : ∀ (n size : Nat) (prev : Option ListEntriesPaginationToken)
      (results : List Entry),
      (entriesApplyPageSizeFn n size prev results).1 = results.take size :=
    fun _ _ _ _ => rfl
  refine ⟨_, rfl, rfl, ?_, ?_⟩
  · -- retained equals the whole post-cursor list: the counter advances
    intro hall
    rw [hfst] at hall
    have hlen2 : (entriesApplyPageTokenFn tkn inner.results).1.length =
        req.maxPageSize.toNat := by
      have := congrArg List.length hall
      rw [List.length_take] at this
      omega
    have hinc : (decide (0 < (entriesApplyPageTokenFn tkn inner.results).2) &&
        decide ((entriesApplyPageTokenFn tkn inner.results).2 ≤ req.maxPageSize.toNat)) = true := by
      simp only [Bool.and_eq_true, decide_eq_true_eq]
      omega
    unfold entriesApplyPageSizeFn
    dsimp only
    rw [hinc]
    rfl
  · -- some post-cursor element was not retained: the counter is unchanged
    intro hne
    have hninc : (decide (0 < (entriesApplyPageTokenFn tkn inner.results).2) &&
        decide ((entriesApplyPageTokenFn tkn inner.results).2 ≤ req.maxPageSize.toNat)) = false := by
      simp only [Bool.and_eq_false_iff, decide_eq_false_iff_not]
      by_contra hcon
      push_neg at hcon
      obtain ⟨h0, hle⟩ := hcon
      -- the counter bounds force filter and take to be the identity
      have heq1 : ((entriesApplyPageTokenFn tkn inner.results).1.filter p).length =
          (entriesApplyPageTokenFn tkn inner.results).1.length := by omega
      have heq2 : (entriesApplyPageTokenFn tkn inner.results).1.filter p =
          (entriesApplyPageTokenFn tkn inner.results).1 :=
        (List.filter_sublist _).eq_of_length heq1
      apply hne
      rw [hfst, heq2]
      have heq3 : req.maxPageSize.toNat =
          (entriesApplyPageTokenFn tkn inner.results).1.length := by
        rw [← heq1]
        omega
      rw [heq3, List.take_length]
    unfold entriesApplyPageSizeFn
    dsimp only
    rw [hninc]
    rfl

/-- A decoder recognizing "ctok" as a categories cursor token. -/
def fromTokC6 : String → Except TokenError ListCategoriesPaginationToken :=
  fun s =>
    if s = "ctok" then .ok { afterCategory := "categories/b" }
    else .error .decodeFailed

/-- A compiler recognizing "flt" as a predicate dropping categories/d. -/
def compileC6 : String → Except String (Category → Bool) :=
  fun s =>
    if s = "flt" then .ok (fun c => c.path != "categories/d")
    else .error "bad filter"

/-- The C6 witness request: token, filter and page size all active. -/
def reqC6 : ListReq := { pageToken := "ctok", filter := "flt", maxPageSize := 1 }

/-- The C6 witness inner response: five categories, no inner token. -/
def innerC6 : ListState Category ListCategoriesPaginationToken :=
  { results := [⟨"categories/a"⟩, ⟨"categories/b"⟩, ⟨"categories/c"⟩,
      ⟨"categories/d"⟩, ⟨"categories/e"⟩],
    nextPageToken := none }

/-- The C6 witness output: cursor dropped a and b, the filter dropped d,
the size cut kept only c. -/
def outC6 : ListState Category ListCategoriesPaginationToken :=
  { results := [⟨"categories/c"⟩],
    nextPageToken := some { afterCategory := "categories/c" } }

/-- Witness for C6_stage_order on the concrete categories scenario. -/
theorem C6_stage_order_witness :
    outC6.results = sliceBySize reqC6.maxPageSize
      ((categoriesApplyPageTokenFn { afterCategory := "categories/b" }
        innerC6.results).filter (fun c => c.path != "categories/d")) :=
  C6_stage_order.1 fromTokC6 compileC6 reqC6 innerC6
    { afterCategory := "categories/b" } (fun c => c.path != "categories/d") outC6
    (by decide) (by rfl) (by decide) (by rfl) (by rfl)

/-- A decoder recognizing "etok" as an entries cursor token. -/
def fromTokC4 : String → Except TokenError ListEntriesPaginationToken :=
  fun s =>
    if s = "etok" then
      .ok { page := 3, afterEntry := "categories/c/entries/a", startUpdateTime := 1 }
    else .error .decodeFailed

/-- A trivial filter compiler for the C4 witness. -/
def compileC4 : String → Except String (Entry → Bool) :=
  fun _ => .ok (fun _ => true)

/-- The C4 witness request: cursor token applied, no filter, page size 2. -/
def reqC4 : ListReq := { pageToken := "etok", filter := "", maxPageSize := 2 }

/-- The C4 witness cursor token (exact match on the first entry). -/
def tknC4 : ListEntriesPaginationToken :=
  { page := 3, afterEntry := "categories/c/entries/a", startUpdateTime := 1 }

/-- The C4 witness inner response: three entries and the scraper's token
for upstream page 3. -/
def innerC4 : ListState Entry ListEntriesPaginationToken :=
  { results := [⟨"categories/c/entries/a", 1⟩, ⟨"categories/c/entries/b", 2⟩,
      ⟨"categories/c/entries/c", 3⟩],
    nextPageToken := some
      { page := 3, afterEntry := "categories/c/entries/c", startUpdateTime := 3 } }

/-- The C4 witness output: both post-cursor entries retained, so the
upstream-page counter advanced from 3 to 4. -/
def outC4 : ListState Entry ListEntriesPaginationToken :=
  { results := [⟨"categories/c/entries/b", 2⟩, ⟨"categories/c/entries/c", 3⟩],
    nextPageToken := some
      { page := 4, afterEntry := "categories/c/entries/c", startUpdateTime := 3 } }

/-- Witness for C4_upstream_page_advance on the concrete entries
scenario. -/
theorem C4_upstream_page_advance_witness :
    ∃ t', outC4.nextPageToken = some t' ∧
      outC4.results =
        ((entriesApplyPageTokenFn tknC4 innerC4.results).1.filter
          (fun _ => true)).take reqC4.maxPageSize.toNat ∧
      (outC4.results = (entriesApplyPageTokenFn tknC4 innerC4.results).1 →
        t'.page = (innerC4.nextPageToken.getD ⟨1, "", 0⟩).page + 1) ∧
      (outC4.results ≠ (entriesApplyPageTokenFn tknC4 innerC4.results).1 →
        t'.page = (innerC4.nextPageToken.getD ⟨1, "", 0⟩).page) :=
  C4_upstream_page_advance fromTokC4 compileC4 reqC4 innerC4 tknC4 (fun _ => true)
    outC4 (by decide) (by rfl) (by rfl) (by decide) (by decide) (by rfl)

/-- C7: a non-empty page_token that fails base64url decoding, proto
unmarshalling, or schema validation makes FromToken return a TokenError
(first conjunct characterizes exactly these three failure modes), and
every list operation then returns InvalidArgument with no results — a
malformed token is never treated as if no token had been supplied. -/
theorem C7_malformed_token :
    (∀ {B Tkn E1 E2 E3 : Type} (decode : String → Except E1 B)
      (unmarshal : B → Except E2 Tkn) (validateTok : Tkn → Except E3 Unit)
      (t : String),
      (∃ e, FromToken decode unmarshal validateTok t = .error e) ↔
        ((∃ e1, decode t = .error e1) ∨
          (∃ b e2, decode t = .ok b ∧ unmarshal b = .error e2) ∨
          (∃ b m e3, decode t = .ok b ∧ unmarshal b = .ok m ∧
            validateTok m = .error e3))) ∧
    (∀ {B E1 E2 E3 : Type} (decode : String → Except E1 B)
      (unmarshal : B → Except E2 ListCategoriesPaginationToken)
      (validateTok : ListCategoriesPaginationToken → Except E3 Unit)
      (compileFn : String → Except String (Category → Bool))
      (req : ListReq) (inner : ListState Category ListCategoriesPaginationToken)
      (e : TokenError),
      req.pageToken ≠ "" →
      FromToken decode unmarshal validateTok req.pageToken = .error e →
      paginatorListCategories (FromToken decode unmarshal validateTok)
        compileFn req inner = .error ⟨.invalidArgument⟩) ∧
    (∀ {B E1 E2 E3 : Type} (decode : String → Except E1 B)
      (unmarshal : B → Except E2 ListEntriesPaginationToken)
      (validateTok : ListEntriesPaginationToken → Except E3 Unit)
      (compileFn : String → Except String (Entry → Bool))
      (req : ListReq) (inner : ListState Entry ListEntriesPaginationToken)
      (e : TokenError),
      req.pageToken ≠ "" →
      FromToken decode unmarshal validateTok req.pageToken = .error e →
      paginatorListEntries (FromToken decode unmarshal validateTok)
        compileFn req inner = .error ⟨.invalidArgument⟩) ∧
    (∀ {B E1 E2 E3 : Type} (decode : String → Except E1 B)
      (unmarshal : B → Except E2 ListChaptersPaginationToken)
      (validateTok : ListChaptersPaginationToken → Except E3 Unit)
      (compileFn : String → Except String (Chapter → Bool))
      (req : ListReq) (inner : ListState Chapter ListChaptersPaginationToken)
      (e : TokenError),
      req.pageToken ≠ "" →
      FromToken decode unmarshal validateTok req.pageToken = .error e →
      paginatorListChapters (FromToken decode unmarshal validateTok)
        compileFn req inner = .error ⟨.invalidArgument⟩) ∧
    (∀ {B E1 E2 E3 : Type} (decode : String → Except E1 B)
      (unmarshal : B → Except E2 ListUsersPaginationToken)
      (validateTok : ListUsersPaginationToken → Except E3 Unit)
      (compileFn : String → Except String (User → Bool))
      (req : ListReq) (inner : ListState User ListUsersPaginationToken)
      (e : TokenError),
      req.pageToken ≠ "" →
      FromToken decode unmarshal validateTok req.pageToken = .error e →
      paginatorListUsers (FromToken decode unmarshal validateTok)
        compileFn req inner = .error ⟨.invalidArgument⟩) := by
  refine ⟨?_, ?_, ?_, ?_, ?_⟩
  · intro B Tkn E1 E2 E3 decode unmarshal validateTok t
    unfold FromToken
    cases hd : decode t with
    | error e1 => simp [hd]
    | ok b =>
      cases hu : unmarshal b with
      | error e2 => simp [hd, hu]
      | ok m =>
        cases hv : validateTok m with
        | error e3 => simp [hd, hu, hv]
        | ok u => simp [hd, hu, hv]
  · intro B E1 E2 E3 decode unmarshal validateTok compileFn req inner e hpt htok
    unfold paginatorListCategories
    rw [applyToken_err _ _ _ _ e hpt htok]
  · intro B E1 E2 E3 decode unmarshal validateTok compileFn req inner e hpt htok
    unfold paginatorListEntries
    rw [applyToken_err _ _ _ _ e hpt htok]
  · intro B E1 E2 E3 decode unmarshal validateTok compileFn req inner e hpt htok
    unfold paginatorListChapters
    rw [applyToken_err _ _ _ _ e hpt htok]
  · intro B E1 E2 E3 decode unmarshal validateTok compileFn req inner e hpt htok
    unfold paginatorListUsers
    rw [applyToken_err _ _ _ _ e hpt htok]

/-- A base64url decoder that rejects every string, for the C7 witness. -/
def decodeC7 : String → Except String (List Nat) :=
  fun _ => .error "illegal base64 data"

/-- An unmarshaller for the C7 witness (never reached). -/
def unmarshalC7 : List Nat → Except String ListCategoriesPaginationToken :=
  fun _ => .ok { afterCategory := "" }

/-- A token validator for the C7 witness (never reached). -/
def validateTokC7 : ListCategoriesPaginationToken → Except String Unit :=
  fun _ => .ok ()

/-- The C7 witness request: a malformed non-empty token. -/
def reqC7 : ListReq := { pageToken := "!!bad!!", filter := "", maxPageSize := 0 }

/-- The C7 witness inner response. -/
def innerC7 : ListState Category ListCategoriesPaginationToken :=
  { results := [⟨"categories/a"⟩], nextPageToken := none }

/-- Witness for C7_malformed_token: ListCategories with an undecodable
token returns InvalidArgument. -/
theorem C7_malformed_token_witness :
    paginatorListCategories (FromToken decodeC7 unmarshalC7 validateTokC7)
      (fun _ => .error "unused") reqC7 innerC7 = .error ⟨.invalidArgument⟩ :=
  C7_malformed_token.2.1 decodeC7 unmarshalC7 validateTokC7
    (fun _ => .error "unused") reqC7 innerC7 .decodeFailed (by decide) (by rfl)

/-! ## validator.go: the request/response validation wrapper

The generic validate helper validates the request message (InvalidArgument
and no downstream call on failure), delegates, propagates handler errors,
then validates the response message (a failure is logged as a warning and
the response is returned unchanged).  protovalidate runs in an external
library, so the two validation outcomes are the parameters validReq and
validRes; the instrumented result records how often the inner handler ran
and whether the response warning was logged. -/

/-- The observable outcome of one validate call. -/
structure ValidateOutcome (Res : Type) where
  result : Except ConnectErr Res
  innerCalls : Nat
  warned : Bool
deriving Repr

/-- The validate generic of validator.go. -/
def validate {Req Res : Type} (validReq : Req → Bool) (validRes : Res → Bool)
    (handle : Req → Except ConnectErr Res) (req : Req) : ValidateOutcome Res :=
  if !(validReq req) then
    { result := .error ⟨.invalidArgument⟩, innerCalls := 0, warned := false }
  else
    match handle req with
    | .error e => { result := .error e, innerCalls := 1, warned := false }
    | .ok res => { result := .ok res, innerCalls := 1, warned := !(validRes res) }

/-- C8: when the request message fails schema validation the Validator
returns InvalidArgument and never invokes the wrapped handler; when the
handler succeeds but the response message fails schema validation, the
response is still returned unchanged and the failure is only logged (the
warning flag). -/
theorem C8_validator (Req Res : Type) (validReq : Req → Bool)
    (validRes : Res → Bool) (handle : Req → Except ConnectErr Res)
    (req : Req) :
    (validReq req = false →
      (validate validReq validRes handle req).result = .error ⟨.invalidArgument⟩ ∧
      (validate validReq validRes handle req).innerCalls = 0) ∧
    (∀ res, validReq req = true → handle req = .ok res →
      (validate validReq validRes handle req).result = .ok res ∧
      (validate validReq validRes handle req).innerCalls = 1 ∧
      (validate validReq validRes handle req).warned = !(validRes res)) := by
  constructor
  · intro hbad
    unfold validate
    rw [hbad]
    exact ⟨rfl, rfl⟩
  · intro res hgood hres
    unfold validate
    rw [hgood, hres]
    exact ⟨rfl, rfl, rfl⟩

/-- Witness for C8_validator: a valid request whose response fails
validation is still returned, with the warning logged. -/
theorem C8_validator_witness :
    (validate (fun (_ : Nat) => true) (fun (r : Nat) => r < 100)
      (fun n => .ok (n + 200)) 1).result = .ok 201 ∧
    (validate (fun (_ : Nat) => true) (fun (r : Nat) => r < 100)
      (fun n => .ok (n + 200)) 1).innerCalls = 1 ∧
    (validate (fun (_ : Nat) => true) (fun (r : Nat) => r < 100)
      (fun n => .ok (n + 200)) 1).warned = !(decide ((201 : Nat) < 100)) :=
  (C8_validator Nat Nat (fun _ => true) (fun r => r < 100)
    (fun n => .ok (n + 200)) 1).2 201 (by decide) (by rfl)

/-! ## interactivity.go: updateResource and the three update operations

updateResource loads the interaction record for (user, path) (absence
yields a zero-value record keyed to user/path), validates the field mask
(mask.IsValid against the target message descriptor — an external
protobuf computation, passed in as maskValid — then non-emptiness),
applies the masked fields by lowercased name through the per-type closure
(an unrecognized name is InvalidArgument), and only then upserts.  The
store is a list of records keyed by (user, path); Internal store failures
are not modeled (they abort before the mask checks and never upsert).
The outcome records the final store and how often UpsertResource ran. -/

/-- A db.Resource row: the per-user per-path interaction record. -/
structure DbResource where
  user : Nat
  path : String
  hidden : Bool
  starred : Bool
  viewTime : Option Int
  readTime : Option Int
deriving DecidableEq, Repr

/-- The interaction store: the Resources rows. -/
abbrev Store := List DbResource

/-- storage.Resources.GetResource: the row for (user, path), if any. -/
def getResource (store : Store) (userId : Nat) (path : String) : Option DbResource :=
  store.find? (fun r => r.user == userId && r.path == path)

/-- storage.Resources.UpsertResource: replace the (user, path) row or
insert it. -/
def upsertResource (store : Store) (res : DbResource) : Store :=
  if store.any (fun r => r.user == res.user && r.path == res.path) then
    store.map (fun r => if r.user == res.user && r.path == res.path then res else r)
  else store ++ [res]

/-- The observable outcome of one updateResource call. -/
structure UpdateOutcome where
  result : Except ConnectErr Unit
  store : Store
  upserts : Nat
deriving Repr

/-- The updateResource generic of interactivity.go. -/
def updateResource {Res : Type} (store : Store) (userId : Nat)
    (reqPath : String) (resource : Res) (maskPaths : List String)
    (maskValid : Bool)
    (update : DbResource → Res → List String → Except ConnectErr DbResource) :
    UpdateOutcome :=
  let dbRes := (getResource store userId reqPath).getD
    { user := userId, path := reqPath, hidden := false, starred := false,
      viewTime := none, readTime := none }
  if !maskValid then
    { result := .error ⟨.invalidArgument⟩, store := store, upserts := 0 }
  else if maskPaths.isEmpty then
    { result := .error ⟨.invalidArgument⟩, store := store, upserts := 0 }
  else
    match update dbRes resource maskPaths with
    | .error e => { result := .error e, store := store, upserts := 0 }
    | .ok dbRes2 =>
      { result := .ok (), store := upsertResource store dbRes2, upserts := 1 }

/-- The partial Category message of an UpdateCategoryRequest. -/
structure CategoryMsg where
  hidden : Bool
deriving DecidableEq, Repr

/-- The partial Entry message of an UpdateEntryRequest. -/
structure EntryMsg where
  hidden : Bool
  starred : Bool
  viewTime : Option Int
  readTime : Option Int
deriving DecidableEq, Repr

/-- The partial Chapter message of an UpdateChapterRequest. -/
structure ChapterMsg where
  viewTime : Option Int
  readTime : Option Int
deriving DecidableEq, Repr

/-- strings.ToLower on a mask path (the field names are ASCII). -/
def toLowerStr (s : String) : String := String.mk (s.data.map Char.toLower)

/-- The UpdateCategory field loop: only "hidden" is recognized. -/
def updateCategoryFields (res : DbResource) (cat : CategoryMsg) :
    List String → Except ConnectErr DbResource
  | [] => .ok res
  | fp :: rest =>
    if toLowerStr fp = "hidden" then
      updateCategoryFields { res with hidden := cat.hidden } cat rest
    else .error ⟨.invalidArgument⟩

/-- The UpdateEntry field loop: hidden, starred, view_time, read_time. -/
def updateEntryFields (res : DbResource) (entry : EntryMsg) :
    List String → Except ConnectErr DbResource
  | [] => .ok res
  | fp :: rest =>
    if toLowerStr fp = "hidden" then
      updateEntryFields { res with hidden := entry.hidden } entry rest
    else if toLowerStr fp = "starred" then
      updateEntryFields { res with starred := entry.starred } entry rest
    else if toLowerStr fp = "view_time" then
      updateEntryFields { res with viewTime := entry.viewTime } entry rest
    else if toLowerStr fp = "read_time" then
      updateEntryFields { res with readTime := entry.readTime } entry rest
    else .error ⟨.invalidArgument⟩

/-- The UpdateChapter field loop: view_time and read_time only. -/
def updateChapterFields (res : DbResource) (chapter : ChapterMsg) :
    List String → Except ConnectErr DbResource
  | [] => .ok res
  | fp :: rest =>
    if toLowerStr fp = "view_time" then
      updateChapterFields { res with viewTime := chapter.viewTime } chapter rest
    else if toLowerStr fp = "read_time" then
      updateChapterFields { res with readTime := chapter.readTime } chapter rest
    else .error ⟨.invalidArgument⟩

theorem updateCategoryFields_err (res : DbResource) (cat : CategoryMsg)
    (paths : List String) (h : ∃ fp ∈ paths, ¬ toLowerStr fp = "hidden") :
    updateCategoryFields res cat paths = .error ⟨.invalidArgument⟩ := by
  induction paths generalizing res with
  | nil => simp at h
  | cons fp rest ih =>
    unfold updateCategoryFields
    by_cases hf : toLowerStr fp = "hidden"
    · rw [if_pos hf]
      apply ih
      obtain ⟨bad, hmem, hbad⟩ := h
      rcases List.mem_cons.mp hmem with rfl | hmem
      · exact absurd hf hbad
      · exact ⟨bad, hmem, hbad⟩
    · rw [if_neg hf]

theorem updateEntryFields_err (res : DbResource) (entry : EntryMsg)
    (paths : List String)
    (h : ∃ fp ∈ paths,
      toLowerStr fp ∉ (["hidden", "starred", "view_time", "read_time"] : List String)) :
    updateEntryFields res entry paths = .error ⟨.invalidArgument⟩ := by
  induction paths generalizing res with
  | nil => simp at h
  | cons fp rest ih =>
    obtain ⟨bad, hmem, hbad⟩ := h
    rcases List.mem_cons.mp hmem with rfl | hmem
    · simp only [List.mem_cons, List.mem_singleton, not_or] at hbad
      obtain ⟨h1, h2, h3, h4⟩ := hbad
      unfold updateEntryFields
      rw [if_neg h1, if_neg h2, if_neg h3, if_neg (by simpa using h4)]
    · unfold updateEntryFields
      by_cases h1 : toLowerStr fp = "hidden"
      · rw [if_pos h1]; exact ih _ ⟨bad, hmem, hbad⟩
      · rw [if_neg h1]
        by_cases h2 : toLowerStr fp = "starred"
        · rw [if_pos h2]; exact ih _ ⟨bad, hmem, hbad⟩
        · rw [if_neg h2]
          by_cases h3 : toLowerStr fp = "view_time"
          · rw [if_pos h3]; exact ih _ ⟨bad, hmem, hbad⟩
          · rw [if_neg h3]
            by_cases h4 : toLowerStr fp = "read_time"
            · rw [if_pos h4]; exact ih _ ⟨bad, hmem, hbad⟩
            · rw [if_neg h4]

theorem updateChapterFields_err (res : DbResource) (chapter : ChapterMsg)
    (paths : List String)
    (h : ∃ fp ∈ paths,
      toLowerStr fp ∉ (["view_time", "read_time"] : List String)) :
    updateChapterFields res chapter paths = .error ⟨.invalidArgument⟩ := by
  induction paths generalizing res with
  | nil => simp at h
  | cons fp rest ih =>
    obtain ⟨bad, hmem, hbad⟩ := h
    rcases List.mem_cons.mp hmem with rfl | hmem
    · simp only [List.mem_cons, List.mem_singleton, not_or] at hbad
      obtain ⟨h1, h2⟩ := hbad
      unfold updateChapterFields
      rw [if_neg h1, if_neg (by simpa using h2)]
    · unfold updateChapterFields
      by_cases h1 : toLowerStr fp = "view_time"
      · rw [if_pos h1]; exact ih _ ⟨bad, hmem, hbad⟩
      · rw [if_neg h1]
        by_cases h2 : toLowerStr fp = "read_time"
        · rw [if_pos h2]; exact ih _ ⟨bad, hmem, hbad⟩
        · rw [if_neg h2]

theorem updateResource_invalid {Res : Type} (store : Store) (userId : Nat)
    (reqPath : String) (resource : Res) (maskPaths : List String)
    (maskValid : Bool)
    (update : DbResource → Res → List String → Except ConnectErr DbResource)
    (h : maskValid = false ∨ maskPaths = [] ∨
      (∀ res, update res resource maskPaths = .error ⟨.invalidArgument⟩)) :
    (updateResource store userId reqPath resource maskPaths maskValid update).result
        = .error ⟨.invalidArgument⟩ ∧
    (updateResource store userId reqPath resource maskPaths maskValid update).store
        = store ∧
    (updateResource store userId reqPath resource maskPaths maskValid update).upserts
        = 0 := by
  rcases h with rfl | rfl | herr
  · exact ⟨rfl, rfl, rfl⟩
  · cases maskValid with
    | false => exact ⟨rfl, rfl, rfl⟩
    | true => exact ⟨rfl, rfl, rfl⟩
  · cases maskValid with
    | false => exact ⟨rfl, rfl, rfl⟩
    | true =>
      cases hmp : maskPaths with
      | nil => exact ⟨rfl, rfl, rfl⟩
      | cons a l =>
        rw [hmp] at herr
        unfold updateResource
        dsimp only
        rw [herr]
        exact ⟨rfl, rfl, rfl⟩

/-- C10: the update operations are atomic with respect to the interaction
store — whenever the field mask is invalid, empty, or names an
unrecognized field, UpdateCategory/UpdateEntry/UpdateChapter return
InvalidArgument, UpsertResource is never called, and the stored records
are exactly what they were before the call. -/
theorem C10_update_atomicity :
    (∀ (store : Store) (userId : Nat) (reqPath : String) (msg : CategoryMsg)
      (maskPaths : List String) (maskValid : Bool),
      (maskValid = false ∨ maskPaths = [] ∨
        ∃ fp ∈ maskPaths, ¬ toLowerStr fp = "hidden") →
      (updateResource store userId reqPath msg maskPaths maskValid
        updateCategoryFields).result = .error ⟨.invalidArgument⟩ ∧
      (updateResource store userId reqPath msg maskPaths maskValid
        updateCategoryFields).store = store ∧
      (updateResource store userId reqPath msg maskPaths maskValid
        updateCategoryFields).upserts = 0) ∧
    (∀ (store : Store) (userId : Nat) (reqPath : String) (msg : EntryMsg)
      (maskPaths : List String) (maskValid : Bool),
      (maskValid = false ∨ maskPaths = [] ∨
        ∃ fp ∈ maskPaths, toLowerStr fp ∉
          (["hidden", "starred", "view_time", "read_time"] : List String)) →
      (updateResource store userId reqPath msg maskPaths maskValid
        updateEntryFields).result = .error ⟨.invalidArgument⟩ ∧
      (updateResource store userId reqPath msg maskPaths maskValid
        updateEntryFields).store = store ∧
      (updateResource store userId reqPath msg maskPaths maskValid
        updateEntryFields).upserts = 0) ∧
    (∀ (store : Store) (userId : Nat) (reqPath : String) (msg : ChapterMsg)
      (maskPaths : List String) (maskValid : Bool),
      (maskValid = false ∨ maskPaths = [] ∨
        ∃ fp ∈ maskPaths, toLowerStr fp ∉
          (["view_time", "read_time"] : List String)) →
      (updateResource store userId reqPath msg maskPaths maskValid
        updateChapterFields).result = .error ⟨.invalidArgument⟩ ∧
      (updateResource store userId reqPath msg maskPaths maskValid
        updateChapterFields).store = store ∧
      (updateResource store userId reqPath msg maskPaths maskValid
        updateChapterFields).upserts = 0) := by
  refine ⟨?_, ?_, ?_⟩
  · intro store userId reqPath msg maskPaths maskValid h
    refine updateResource_invalid store userId reqPath msg maskPaths maskValid
      updateCategoryFields ?_
    rcases h with h | h | h
    · exact .inl h
    · exact .inr (.inl h)
    · exact .inr (.inr (fun res => updateCategoryFields_err res msg maskPaths h))
  · intro store userId reqPath msg maskPaths maskValid h
    refine updateResource_invalid store userId reqPath msg maskPaths maskValid
      updateEntryFields ?_
    rcases h with h | h | h
    · exact .inl h
    · exact .inr (.inl h)
    · exact .inr (.inr (fun res => updateEntryFields_err res msg maskPaths h))
  · intro store userId reqPath msg maskPaths maskValid h
    refine updateResource_invalid store userId reqPath msg maskPaths maskValid
      updateChapterFields ?_
    rcases h with h | h | h
    · exact .inl h
    · exact .inr (.inl h)
    · exact .inr (.inr (fun res => updateChapterFields_err res msg maskPaths h))

/-- The C10 witness store: one existing interaction record. -/
def storeC10 : Store :=
  [{ user := 7, path := "categories/a", hidden := false, starred := true,
     viewTime := some 4, readTime := none }]

/-- Witness for C10_update_atomicity: UpdateCategory with the unrecognized
mask path "starred" fails with InvalidArgument and leaves the store
untouched. -/
theorem C10_update_atomicity_witness :
    (updateResource storeC10 7 "categories/a" ({ hidden := true } : CategoryMsg)
      ["starred"] true updateCategoryFields).result = .error ⟨.invalidArgument⟩ ∧
    (updateResource storeC10 7 "categories/a" ({ hidden := true } : CategoryMsg)
      ["starred"] true updateCategoryFields).store = storeC10 ∧
    (updateResource storeC10 7 "categories/a" ({ hidden := true } : CategoryMsg)
      ["starred"] true updateCategoryFields).upserts = 0 :=
  C10_update_atomicity.1 storeC10 7 "categories/a" { hidden := true }
    ["starred"] true (.inr (.inr ⟨"starred", by decide, by decide⟩))

end Erato
